import Mathlib

set_option maxRecDepth 4000

/-!
Shallow embedding of the Wordpot tip-funded Wordle bot
(`src/db.ts`, `src/game.ts`, `src/index.ts`) in Lean 4.

Modelling conventions:
* SQLite rows become records in lists; a `select ... where` becomes
  `List.find?` / `List.filter`, an `update ... where` becomes `List.map`
  guarded by the `where` predicate, an `insert` appends to the list.
* `bigint` amounts become `Int` (arbitrary precision, as in JS).
* `Date` timestamps become `Nat` parameters (`now`), since only their
  presence matters to the properties verified here.
* Randomly generated row ids (`game-${Date.now()}-...`) become explicit
  `String` parameters; freshness is a hypothesis where it matters.
* The composite SQL keys `${gameId}:${token}` and `${gameId}:${userId}`
  are modelled as the pair of their components: every id the system
  generates is colon-free (`game-<digits>-<base36>`, `0x…` addresses,
  `NATIVE`), so the concatenation is injective on the reachable values
  and the pair is the faithful reading of the key.
* External blockchain calls (`getBalance`, `readContract`, `execute`)
  become oracle parameters; a `none` outcome models a thrown error.
-/

namespace Wordpot

/-- JS `String.prototype.toLowerCase`, modelled per character so that it
reduces in the kernel. -/
def strLower (s : String) : String := ⟨s.data.map Char.toLower⟩

/-- JS `String.prototype.trim`: strip whitespace from both ends. -/
def strTrim (s : String) : String :=
  ⟨(((s.data.dropWhile Char.isWhitespace).reverse).dropWhile
      Char.isWhitespace).reverse⟩

/-- JS `String.prototype.startsWith`. -/
def strStarts (s pre : String) : Bool := pre.data.isPrefixOf s.data

/-- `GameState` from `src/db.ts`: `'ACTIVE' | 'PAYOUT_PENDING'`. -/
inductive GameState
  | ACTIVE
  | PAYOUT_PENDING
deriving DecidableEq, Repr

/-- The `games` row / `Game` interface from `src/db.ts`. -/
structure Game where
  id : String
  spaceId : String
  channelId : String
  state : GameState
  targetWord : String
  winnerUserId : Option String
  wonAt : Option Nat
  createdAt : Nat
  gameNumber : Nat
deriving DecidableEq, Repr

/-- The `guesses` row from `src/db.ts`. -/
structure GuessRow where
  id : String
  gameId : String
  userId : String
  guess : String
  feedback : String
  createdAt : Nat
deriving DecidableEq, Repr

/-- The `pools` row from `src/db.ts` (key `${gameId}:${token}` modelled
as the pair of fields). -/
structure PoolRow where
  gameId : String
  token : String
  trackedBalance : Int
  lastUpdated : Nat
deriving DecidableEq, Repr

/-- The `deposits` row from `src/db.ts`. -/
structure DepositRow where
  id : String
  gameId : String
  sender : String
  token : String
  amount : Int
  atTime : Nat
deriving DecidableEq, Repr

/-- Payout status from `src/db.ts`: `'pending' | 'success' | 'failed'`. -/
inductive PayoutStatus
  | pending
  | success
  | failed
deriving DecidableEq, Repr

/-- The `payouts` row from `src/db.ts`. -/
structure PayoutRow where
  id : String
  gameId : String
  token : String
  amount : Int
  txHash : String
  status : PayoutStatus
  createdAt : Nat
deriving DecidableEq, Repr

/-- The `gameNumberCounters` row from `src/db.ts` (key
`${spaceId}:${channelId}` modelled as the pair of fields). -/
structure CounterRow where
  spaceId : String
  channelId : String
  count : Nat
deriving DecidableEq, Repr

/-- The `eligiblePlayers` row from `src/db.ts` (key
`${gameId}:${normalized}` modelled as the pair of fields; `userId` is
stored lowercased by `addEligiblePlayer`). -/
structure EligibleRow where
  gameId : String
  userId : String
deriving DecidableEq, Repr

/-- The whole persistent state of the `Database` class in `src/db.ts`. -/
structure DB where
  games : List Game
  guesses : List GuessRow
  pools : List PoolRow
  deposits : List DepositRow
  payouts : List PayoutRow
  counters : List CounterRow
  eligible : List EligibleRow
deriving DecidableEq, Repr

/-- The empty database (fresh SQLite file). -/
def emptyDB : DB := ⟨[], [], [], [], [], [], []⟩

/-- `Database.createGame` (`src/db.ts`): reads the per-channel counter,
allocates `gameNumber` (existing count + 1, or 1), persists the new
counter value, and inserts an ACTIVE game. -/
def createGame (db : DB) (spaceId channelId targetWord gameId : String)
    (now : Nat) : Game × DB :=
  let prev := db.counters.find? fun r =>
    r.spaceId == spaceId && r.channelId == channelId
  let gameNumber := match prev with
    | some r => r.count + 1
    | none => 1
  let counters := match prev with
    | some _ => db.counters.map fun r =>
        if r.spaceId == spaceId && r.channelId == channelId then
          { r with count := gameNumber }
        else r
    | none => db.counters ++ [⟨spaceId, channelId, gameNumber⟩]
  let g : Game :=
    ⟨gameId, spaceId, channelId, .ACTIVE, targetWord, none, none, now, gameNumber⟩
  (g, { db with games := db.games ++ [g], counters := counters })

/-- `Database.getGame` (`src/db.ts`): first row with the given id. -/
def getGame (db : DB) (gameId : String) : Option Game :=
  db.games.find? fun g => g.id == gameId

/-- `Database.getCurrentGame` (`src/db.ts`): first ACTIVE row for the
channel (`limit 1`). -/
def getCurrentGame (db : DB) (spaceId channelId : String) : Option Game :=
  db.games.find? fun g =>
    g.spaceId == spaceId && g.channelId == channelId &&
      g.state == GameState.ACTIVE

/-- `Database.casToPayoutPending` (`src/db.ts`): the win-lock.  Reads the
game; if absent or not ACTIVE returns `false` without touching the
store; otherwise updates every row with that id to PAYOUT_PENDING with
the winner and `wonAt` set, and returns `true`. -/
def casToPayoutPending (db : DB) (gameId winnerUserId : String) (now : Nat) :
    Bool × DB :=
  match getGame db gameId with
  | none => (false, db)
  | some g =>
    if g.state ≠ GameState.ACTIVE then (false, db)
    else
      (true, { db with games := db.games.map fun x =>
        if x.id == gameId then
          { x with state := .PAYOUT_PENDING
                 , winnerUserId := some winnerUserId
                 , wonAt := some now }
        else x })

/-- `Database.setGameState` (`src/db.ts`): unconditional state update of
every row with the given id. -/
def setGameState (db : DB) (gameId : String) (state : GameState) : DB :=
  { db with games := db.games.map fun x =>
      if x.id == gameId then { x with state := state } else x }

/-- `Database.addGuess` (`src/db.ts`): append-only insert (guess stored
lowercased). -/
def addGuess (db : DB) (gameId userId guess feedback guessId : String)
    (now : Nat) : DB :=
  { db with guesses :=
      db.guesses ++ [⟨guessId, gameId, userId, strLower guess, feedback, now⟩] }

/-- `Database.getPool` (`src/db.ts`): lookup by the `${gameId}:${token}`
key (`limit 1`). -/
def getPool (db : DB) (gameId token : String) : Option PoolRow :=
  db.pools.find? fun r => r.gameId == gameId && r.token == token

/-- `Database.getPoolTokens` (`src/db.ts`): tokens of all pool rows of a
game. -/
def getPoolTokens (db : DB) (gameId : String) : List String :=
  (db.pools.filter fun r => r.gameId == gameId).map (·.token)

/-- `Database.addToPool` (`src/db.ts`): additive upsert.  If a row for
the key exists, every row with that key is set to `existing + amount`
(the first matching row's balance, as in the SQL update); otherwise a
fresh row with `amount` is inserted. -/
def addToPool (db : DB) (gameId token : String) (amount : Int) (now : Nat) :
    DB :=
  match getPool db gameId token with
  | some ex =>
    { db with pools := db.pools.map fun r =>
        if r.gameId == gameId && r.token == token then
          { r with trackedBalance := ex.trackedBalance + amount
                 , lastUpdated := now }
        else r }
  | none =>
    { db with pools := db.pools ++ [⟨gameId, token, amount, now⟩] }

/-- `Database.getPoolBalance` (`src/db.ts`): tracked balance, 0 when the
row is absent. -/
def getPoolBalance (db : DB) (gameId token : String) : Int :=
  match getPool db gameId token with
  | some p => p.trackedBalance
  | none => 0

/-- `Database.addDeposit` (`src/db.ts`): appends the deposit row, then
credits the pool (`addToPool`) with the same amount. -/
def addDeposit (db : DB) (gameId sender token : String) (amount : Int)
    (depositId : String) (now : Nat) : DB :=
  let db1 := { db with deposits :=
      db.deposits ++ [⟨depositId, gameId, sender, token, amount, now⟩] }
  addToPool db1 gameId token amount now

/-- `Database.getDeposits` (`src/db.ts`). -/
def getDeposits (db : DB) (gameId : String) : List DepositRow :=
  db.deposits.filter fun d => d.gameId == gameId

/-- `Database.recordPayout` (`src/db.ts`): append-only insert. -/
def recordPayout (db : DB) (gameId token : String) (amount : Int)
    (txHash : String) (status : PayoutStatus) (payoutId : String)
    (now : Nat) : DB :=
  { db with payouts :=
      db.payouts ++ [⟨payoutId, gameId, token, amount, txHash, status, now⟩] }

/-- `Database.addEligiblePlayer` (`src/db.ts`): idempotent set-add of the
lowercased identifier. -/
def addEligiblePlayer (db : DB) (gameId userId : String) : DB :=
  let normalized := strLower userId
  if (db.eligible.find? fun e =>
      e.gameId == gameId && e.userId == normalized).isSome then
    db
  else
    { db with eligible := db.eligible ++ [⟨gameId, normalized⟩] }

/-- `Database.isEligiblePlayer` (`src/db.ts`): direct membership of the
lowercased id in the eligible set, else fallback on a case-insensitive
match against any deposit sender of the game. -/
def isEligiblePlayer (db : DB) (gameId userId : String) : Bool :=
  let normalized := strLower userId
  if (db.eligible.find? fun e =>
      e.gameId == gameId && e.userId == normalized).isSome then
    true
  else
    (getDeposits db gameId).any fun d => strLower d.sender == normalized

/-! ### `src/game.ts` -/

/-- `WORD_LIST` from `src/game.ts`, verbatim (including its duplicate
entries). -/
def WORD_LIST : List String := [
    "apple", "beach", "crane", "dance", "earth", "fancy", "grace", "heart",
    "ideal", "jolly", "kneel", "laugh", "magic", "noble", "ocean", "peace",
    "queen", "reach", "sweet", "tiger", "uncle", "vocal", "world", "young",
    "zebra", "blade", "crown", "drown", "flame", "globe", "horse", "image",
    "joust", "knife", "light", "march", "north", "orbit", "paint", "quiet",
    "roast", "shade", "taste", "ultra", "vault", "waste", "xerox", "yacht",
    "abuse", "brick", "charm", "draft", "elope", "fault", "ghost", "hinge",
    "inbox", "joint", "knead", "leash", "marsh", "nudge", "oxide", "pouch",
    "quill", "retch", "shelf", "trunk", "unzip", "vivid", "waltz", "xylem",
    "yield", "admit", "blink", "crack", "drift", "erupt", "flick", "grasp",
    "hound", "inlet", "jewel", "knack", "latch", "mimic", "nymph", "opera",
    "pluck", "quack", "rivet", "scoop", "twist", "unfit", "vapor", "wharf",
    "xerox", "yummy", "abyss", "brisk", "clasp", "dread", "epoxy", "frock",
    "gloom", "hitch", "infer", "joust", "kneel", "lurch", "mirth", "nudge",
    "outdo", "plaid", "quash", "robin", "swoop", "tweak", "unify", "verve",
    "wince", "xylem", "yacht", "abide", "brink", "climb", "drape", "elbow",
    "fiber", "groan", "hasty", "incur", "jolly", "knock", "lodge", "mirth",
    "noble", "ocean", "piano", "quilt", "radar", "swoon", "throb", "unzip",
    "vague", "waltz", "xenon", "yield", "abort", "broom", "cleft", "drown",
    "elude", "frock", "gloom", "hitch", "infer", "joust", "kneel", "lurch",
    "mirth", "nudge", "outdo", "plaid", "quash", "robin", "swoop", "tweak",
    "unify", "verve", "wince", "xylem", "yacht"]

/-- The per-position classification of `src/game.ts`'s `Feedback.letters`
(`'green' | 'yellow' | 'gray'`). -/
inductive Color
  | green
  | yellow
  | gray
deriving DecidableEq, Repr

/-- First pass of `computeFeedback`: position `i` is green iff
`guess[i] == target[i]` (already lowercased), else it keeps its initial
`'gray'`. -/
def pass1Colors (pairs : List (Char × Char)) : List Color :=
  pairs.map fun p => if p.1 = p.2 then Color.green else Color.gray

/-- The `guessCounts` map as it stands after the first pass: for each
letter, the number of green positions carrying it. -/
def greenCount (pairs : List (Char × Char)) (c : Char) : Nat :=
  (pairs.filter fun p => p.1 == p.2 && p.1 == c).length

/-- Second pass of `computeFeedback`: walks the positions (paired with
their first-pass color); greens are kept; a non-green position with
`targetCounts[ch] > guessCounts[ch]` becomes yellow and increments
`guessCounts[ch]`; otherwise it stays gray.  `tC` is the (completed)
`targetCounts` map, `gC` the running `guessCounts` map. -/
def pass2 (rows : List (Char × Color)) (tC gC : Char → Nat) : List Color :=
  match rows with
  | [] => []
  | (c, col) :: rest =>
    if col = Color.green then Color.green :: pass2 rest tC gC
    else if tC c > gC c then
      Color.yellow :: pass2 rest tC fun x => if x = c then gC x + 1 else gC x
    else Color.gray :: pass2 rest tC gC

/-- `computeFeedback` from `src/game.ts` (the `letters` component of the
returned `Feedback`; the `emoji` string is a pure rendering of it).
Lowercases both words, rejects non-5-letter inputs with the source's
error message, and runs the two passes.  By the end of the source's
first loop `targetCounts[c]` is the total count of `c` in the target and
`guessCounts[c]` is the number of greens carrying `c`, which is what the
second pass starts from. -/
def computeFeedback (guess target : String) : Except String (List Color) :=
  let g := (strLower guess).data
  let t := (strLower target).data
  if g.length ≠ 5 || t.length ≠ 5 then
    .error "Words must be exactly 5 letters"
  else
    let pairs := g.zip t
    .ok (pass2 (g.zip (pass1Colors pairs)) (fun c => t.count c)
          (greenCount pairs))

/-- `isCorrect` from `src/game.ts`: all five positions green. -/
def isCorrect (letters : List Color) : Bool :=
  letters.all (· == Color.green)

/-- `isValidWord` from `src/game.ts`: lowercased+trimmed word of length 5
contained in `WORD_LIST`. -/
def isValidWord (word : String) : Bool :=
  let normalized := strTrim (strLower word)
  normalized.length == 5 && WORD_LIST.contains normalized

/-- `getRandomWord` from `src/game.ts`:
`WORD_LIST[Math.floor(Math.random() * WORD_LIST.length)]`.  The random
draw is modelled by an arbitrary natural seed reduced mod the list
length (the source's index is always in range). -/
def getRandomWord (r : Nat) : String :=
  WORD_LIST.getD (r % WORD_LIST.length) ""

/-! ### `src/index.ts` -/

/-- viem's `zeroAddress`. -/
def zeroAddress : String := "0x0000000000000000000000000000000000000000"

/-- The native-asset test used in `buildPayoutPlan` and `executePayout`
(`src/index.ts`): `token === 'NATIVE' || token === zeroAddress || !token
|| token.length === 0` (for a string, `!token` is exactly emptiness). -/
def isNativeToken (token : String) : Bool :=
  token == "NATIVE" || token == zeroAddress || token.length == 0

/-- Oracle for the external chain reads in `buildPayoutPlan`
(`src/index.ts`): `getBalance` for the bot's native balance and
`readContract(balanceOf)` per ERC-20 token.  A `none` models the call
throwing. -/
structure Chain where
  nativeBalance : Option Int
  erc20Balance : String → Option Int

/-- The external-balance query of one `buildPayoutPlan` loop iteration
(`src/index.ts`): the native branch calls `getBalance`; the ERC-20
branch is guarded by the `0x…`/length-42 address check (an invalid
address is skipped with a warning — in reality `readContract` on such a
string throws, so this is the query failing) and calls
`readContract(balanceOf)`.  `none` is a failed query, skipped by the
loop's `catch`/`continue`. -/
def queryActual (ch : Chain) (token : String) : Option Int :=
  if isNativeToken token then ch.nativeBalance
  else if !(strStarts token "0x") || token.length ≠ 42 then none
  else ch.erc20Balance token

/-- The rest of the `buildPayoutPlan` loop body for one token: emit
`min(actual, tracked)` under the normalized token name iff it is
positive, nothing when the balance could not be determined. -/
def planEntry (db : DB) (ch : Chain) (gameId token : String) :
    Option (String × Int) :=
  let tracked := getPoolBalance db gameId token
  match queryActual ch token with
  | none => none
  | some actual =>
    let amount := if actual < tracked then actual else tracked
    if amount > 0 then
      some (if isNativeToken token then "NATIVE" else token, amount)
    else none

/-- `buildPayoutPlan` (`src/index.ts`): the loop appends at most one
entry per pool token, in order, which is exactly `filterMap` of the
per-token body. -/
def buildPayoutPlan (db : DB) (ch : Chain) (game : Game) :
    List (String × Int) :=
  (getPoolTokens db game.id).filterMap fun t => planEntry db ch game.id t

/-- One entry of the batched `execute` call built by `executePayout`
(`src/index.ts`): a raw value transfer or an ERC-20 `transfer`. -/
inductive Call
  | nativeTransfer (dest : String) (value : Int)
  | erc20Transfer (token dest : String) (amount : Int)
deriving DecidableEq, Repr

/-- The `plan.map` body of `executePayout` (`src/index.ts`): native-like
plan tokens become a raw value transfer to the winner; other tokens must
pass the `0x…`/length-42 check (else the map throws) and become an
ERC-20 `transfer`. -/
def buildCall (winnerAddress : String) (p : String × Int) :
    Except String Call :=
  if p.1 == "NATIVE" || p.1 == zeroAddress || p.1.length == 0 then
    .ok (.nativeTransfer winnerAddress p.2)
  else if !(strStarts p.1 "0x") || p.1.length ≠ 42 then
    .error ("Invalid token address: " ++ p.1)
  else
    .ok (.erc20Transfer p.1 winnerAddress p.2)

/-- `executePayout` (`src/index.ts`).  Builds the plan; an empty plan is
the hard error `'No funds to payout'` before anything else happens.
Otherwise the call list is built (a malformed plan token throws), the
batched transfer plus receipt wait is performed — modelled by
`transferResult`, `none` meaning it threw — and only on success one
`success` Payout row per plan entry is recorded.  The returned triple is
(outcome, store after the call, transfer calls issued). -/
def executePayout (db : DB) (ch : Chain) (game : Game)
    (winnerUserId : String) (transferResult : Option String)
    (payoutIdBase : String) (now : Nat) :
    Except String String × DB × List Call :=
  let plan := buildPayoutPlan db ch game
  if plan.length == 0 then (.error "No funds to payout", db, [])
  else
    match plan.mapM (buildCall winnerUserId) with
    | .error e => (.error e, db, [])
    | .ok calls =>
      match transferResult with
      | none => (.error "transfer failed", db, calls)
      | some txHash =>
        let db2 := plan.enum.foldl (fun acc ip =>
          recordPayout acc game.id ip.2.1 ip.2.2 txHash .success
            (payoutIdBase ++ toString ip.1) now) db
        (.ok txHash, db2, calls)

/-- `startNewGame` (`src/index.ts`): creates a fresh ACTIVE game via the
store (the announcement message is transport, not modelled). -/
def startNewGame (db : DB) (spaceId channelId targetWord gameId : String)
    (now : Nat) : Game × DB :=
  createGame db spaceId channelId targetWord gameId now

/-- One iteration of the rollover loop of `rolloverToNewGame`
(`src/index.ts`): read the old game's tracked balance for this token
from the current store and, if positive, credit the same amount to the
new game's pool and record it in the rolled list. -/
def rolloverStep (curId newId : String) (now : Nat)
    (acc : DB × List (String × Int)) (token : String) :
    DB × List (String × Int) :=
  let amount := getPoolBalance acc.1 curId token
  if amount > 0 then
    (addToPool acc.1 newId token amount now, acc.2 ++ [(token, amount)])
  else acc

/-- `rolloverToNewGame` (`src/index.ts`): reads the current game, starts
the new game first, then (if a current game existed) marks it
PAYOUT_PENDING and runs the rollover loop over its pool tokens. -/
def rolloverToNewGame (db : DB) (spaceId channelId newTargetWord
    newGameId : String) (now : Nat) :
    Game × DB × List (String × Int) :=
  let current := getCurrentGame db spaceId channelId
  let res := startNewGame db spaceId channelId newTargetWord newGameId now
  let newGame := res.1
  match current with
  | none => (newGame, res.2, [])
  | some cur =>
    let db2 := setGameState res.2 cur.id GameState.PAYOUT_PENDING
    let finish := (getPoolTokens db2 cur.id).foldl
      (rolloverStep cur.id newGame.id now) (db2, [])
    (newGame, finish.1, finish.2)

/-! ## Claim theorems -/

/-- C10: every word in the solution list used by `getRandomWord` is
itself a legal guess: every `WORD_LIST` entry is exactly 5 lowercase
alphabetic characters, `isValidWord` accepts it (it is a member of the
guess dictionary, which is `WORD_LIST` itself), and hence any target
drawn by `getRandomWord` is accepted as a guess. -/
theorem wordList_all_valid :
    (∀ w ∈ WORD_LIST, isValidWord w = true ∧ w.length = 5 ∧
      (w.data.all fun ch => ch.isLower && ch.isAlpha) = true) ∧
    ∀ r : Nat, isValidWord (getRandomWord r) = true := by
  constructor
  · decide
  · intro r
    have h1 : ∀ i, i < WORD_LIST.length →
        isValidWord (WORD_LIST.getD i "") = true := by decide
    exact h1 _ (Nat.mod_lt _ (by decide))

/-- Witness for C10 at the concrete word `"apple"` and seed 0. -/
theorem wordList_all_valid_witness :
    isValidWord "apple" = true ∧ isValidWord (getRandomWord 0) = true :=
  ⟨(wordList_all_valid.1 "apple" (by decide)).1, wordList_all_valid.2 0⟩

/-- C8: `isEligiblePlayer` returns true iff the lowercased identifier is
in the eligible set for the game, or it case-insensitively matches some
recorded deposit's sender for the game; in particular an identifier
never explicitly marked eligible but matching a deposit sender is
reported eligible. -/
theorem isEligiblePlayer_spec (db : DB) (gameId userId : String) :
    (isEligiblePlayer db gameId userId = true ↔
      ((∃ e ∈ db.eligible, e.gameId = gameId ∧ e.userId = strLower userId) ∨
        ∃ d ∈ db.deposits, d.gameId = gameId ∧
          strLower d.sender = strLower userId)) ∧
    ((∀ e ∈ db.eligible, ¬(e.gameId = gameId ∧ e.userId = strLower userId)) →
      ∀ d ∈ db.deposits, d.gameId = gameId →
        strLower d.sender = strLower userId →
        isEligiblePlayer db gameId userId = true) := by
  have hmain : isEligiblePlayer db gameId userId = true ↔
      ((∃ e ∈ db.eligible, e.gameId = gameId ∧ e.userId = strLower userId) ∨
        ∃ d ∈ db.deposits, d.gameId = gameId ∧
          strLower d.sender = strLower userId) := by
    unfold isEligiblePlayer
    cases hfind : db.eligible.find? fun e =>
        e.gameId == gameId && e.userId == strLower userId with
    | none =>
      have hno : ∀ e ∈ db.eligible,
          ¬(e.gameId = gameId ∧ e.userId = strLower userId) := by
        intro e he hcontra
        have := List.find?_eq_none.mp hfind e he
        simp [hcontra.1, hcontra.2] at this
      simp only [hfind, Option.isSome_none, Bool.false_eq_true, if_false]
      rw [List.any_eq_true]
      constructor
      · rintro ⟨d, hd, hsend⟩
        refine Or.inr ⟨d, ?_, ?_, ?_⟩
        · exact (List.mem_filter.mp hd).1
        · have := (List.mem_filter.mp hd).2
          simpa using this
        · simpa using hsend
      · rintro (⟨e, he, hcontra⟩ | ⟨d, hd, hgid, hsend⟩)
        · exact absurd hcontra (hno e he)
        · refine ⟨d, List.mem_filter.mpr ⟨hd, by simpa using hgid⟩,
            by simpa using hsend⟩
    | some e =>
      have hmem := List.mem_of_find?_eq_some hfind
      have hpred := List.find?_some hfind
      simp only [Bool.and_eq_true, beq_iff_eq] at hpred
      simp only [hfind, Option.isSome_some, if_true]
      constructor
      · intro _
        exact Or.inl ⟨e, hmem, hpred.1, hpred.2⟩
      · intro _; trivial
  refine ⟨hmain, ?_⟩
  intro _ d hd hgid hsend
  exact hmain.mpr (Or.inr ⟨d, hd, hgid, hsend⟩)

/-- Witness for C8: `"0xAbC"` was never marked eligible for game g1 but
matches the deposit sender `"0xABC"` case-insensitively, so it is
reported eligible. -/
theorem isEligiblePlayer_spec_witness :
    isEligiblePlayer
      { emptyDB with deposits := [⟨"d1", "g1", "0xABC", "NATIVE", 5, 0⟩] }
      "g1" "0xAbC" = true := by
  refine (isEligiblePlayer_spec
    { emptyDB with deposits := [⟨"d1", "g1", "0xABC", "NATIVE", 5, 0⟩] }
    "g1" "0xAbC").2 (by intro e he; simp [emptyDB] at he) ⟨"d1", "g1", "0xABC", "NATIVE", 5, 0⟩
    (by simp) (by decide) (by decide)

/-- Concrete game/store/chain for C9: a PAYOUT_PENDING game with no pool
rows, so its payout plan is empty. -/
def c9game : Game :=
  ⟨"g1", "s", "c", .PAYOUT_PENDING, "apple", some "alice", some 1, 0, 1⟩

def c9db : DB := { emptyDB with games := [c9game] }

def c9chain : Chain := ⟨some 100, fun _ => none⟩

/-- C9: when the payout plan is empty, `executePayout` fails with the
hard error `'No funds to payout'`, issues no transfer call, records no
Payout row, and leaves the store (hence the game's PAYOUT_PENDING
state) untouched. -/
theorem executePayout_empty (db : DB) (ch : Chain) (game : Game)
    (w : String) (tr : Option String) (pid : String) (now : Nat)
    (hplan : buildPayoutPlan db ch game = []) :
    executePayout db ch game w tr pid now =
      (Except.error "No funds to payout", db, []) ∧
    (executePayout db ch game w tr pid now).2.1.payouts = db.payouts ∧
    getGame (executePayout db ch game w tr pid now).2.1 game.id =
      getGame db game.id := by
  have h1 : executePayout db ch game w tr pid now =
      (Except.error "No funds to payout", db, []) := by
    unfold executePayout
    rw [hplan]
    rfl
  exact ⟨h1, by rw [h1], by rw [h1]⟩

/-- Witness for C9 at the concrete empty-pool PAYOUT_PENDING game. -/
theorem executePayout_empty_witness :
    executePayout c9db c9chain c9game "alice" (some "0xtx") "p" 2 =
      (Except.error "No funds to payout", c9db, []) :=
  (executePayout_empty c9db c9chain c9game "alice" (some "0xtx") "p" 2
    (by decide)).1

/-- Concrete scenario for C3: game g1 with tracked pool balance 1000 on
the native token, actual external balance 400. -/
def c3game : Game := ⟨"g1", "s", "c", .ACTIVE, "apple", none, none, 0, 1⟩

def c3db : DB :=
  { emptyDB with games := [c3game], pools := [⟨"g1", "NATIVE", 1000, 0⟩] }

def c3chain : Chain := ⟨some 400, fun _ => none⟩

/-- C3: `buildPayoutPlan` is the per-token `planEntry` over the game's
pool tokens; for a token whose external balance query succeeds with
value `a`, the entry is `min(a, tracked)` exactly when that minimum is
positive (else the token contributes nothing); a token whose query
fails is skipped, never failing the whole plan; concretely, tracked
1000 with actual 400 yields plan `[("NATIVE", 400)]`. -/
theorem buildPayoutPlan_spec (db : DB) (ch : Chain) (game : Game) :
    (buildPayoutPlan db ch game =
      (getPoolTokens db game.id).filterMap fun t => planEntry db ch game.id t) ∧
    (∀ t a, queryActual ch t = some a →
      planEntry db ch game.id t =
        if 0 < min a (getPoolBalance db game.id t) then
          some (if isNativeToken t then "NATIVE" else t,
                min a (getPoolBalance db game.id t))
        else none) ∧
    (∀ t, queryActual ch t = none → planEntry db ch game.id t = none) ∧
    buildPayoutPlan c3db c3chain c3game = [("NATIVE", 400)] := by
  refine ⟨rfl, ?_, ?_, by decide⟩
  · intro t a h
    unfold planEntry
    rw [h]
    have hmin : (if a < getPoolBalance db game.id t then a
        else getPoolBalance db game.id t) = min a (getPoolBalance db game.id t) := by
      rw [min_def]
      split_ifs <;> omega
    simp only [hmin, gt_iff_lt]
  · intro t h
    unfold planEntry
    rw [h]

/-- Witness for C3 at the concrete 1000-tracked/400-actual pool. -/
theorem buildPayoutPlan_spec_witness :
    planEntry c3db c3chain "g1" "NATIVE" = some ("NATIVE", 400) ∧
    buildPayoutPlan c3db c3chain c3game = [("NATIVE", 400)] := by
  have h := buildPayoutPlan_spec c3db c3chain c3game
  have h2 := h.2.1 "NATIVE" 400 (by decide)
  exact ⟨by rw [show c3game.id = "g1" from rfl] at h2; rw [h2]; decide, h.2.2.2⟩

/-- Number of ACTIVE games the store holds for a channel. -/
def activeCount (db : DB) (spaceId channelId : String) : Nat :=
  db.games.countP fun g =>
    g.spaceId == spaceId && g.channelId == channelId &&
      g.state == GameState.ACTIVE

/-- The store state after two plain `createGame` calls for the same
channel, starting from the empty store. -/
def c6db : DB :=
  (createGame (createGame emptyDB "s" "c" "apple" "g1" 0).2
    "s" "c" "beach" "g2" 1).2

/-- C6 counterexample: the state reached from the empty store by two
`createGame` calls for channel ("s","c") holds two simultaneously
ACTIVE games for that channel, so the Game Store itself does not
enforce at-most-one-ACTIVE. -/
theorem two_active_games_reachable :
    activeCount c6db "s" "c" = 2 ∧ ¬ activeCount c6db "s" "c" ≤ 1 := by
  decide

/-- C6 amended: the Game Store does not enforce the invariant itself —
`createGame` unconditionally inserts an ACTIVE game — but each
operation as the callers use it preserves at-most-one-ACTIVE:
`createGame` yields exactly one ACTIVE game for the channel when none
was ACTIVE before (the `getOrCreateGame` discipline), and
`casToPayoutPending` and `setGameState` to PAYOUT_PENDING never
increase the count of ACTIVE games of any channel. -/
theorem activeCount_ops (db : DB) (spaceId channelId : String) :
    (activeCount db spaceId channelId = 0 →
      ∀ w gid now, activeCount (createGame db spaceId channelId w gid now).2
        spaceId channelId = 1) ∧
    (∀ gid w now, activeCount (casToPayoutPending db gid w now).2
        spaceId channelId ≤ activeCount db spaceId channelId) ∧
    (∀ gid, activeCount (setGameState db gid GameState.PAYOUT_PENDING)
        spaceId channelId ≤ activeCount db spaceId channelId) := by
  refine ⟨?_, ?_, ?_⟩
  · intro h0 w gid now
    unfold activeCount createGame
    simp only [List.countP_append, List.countP_cons, List.countP_nil]
    unfold activeCount at h0
    simp [h0]
  · intro gid w now
    unfold casToPayoutPending
    cases h : getGame db gid with
    | none => exact Nat.le_refl _
    | some g =>
      dsimp only
      by_cases hs : g.state ≠ GameState.ACTIVE
      · rw [if_pos hs]
      · rw [if_neg hs]
        unfold activeCount
        simp only [List.countP_map]
        refine List.countP_mono_left ?_
        intro x _ hx
        simp only [Function.comp] at hx
        by_cases hid : (x.id == gid) = true
        · rw [if_pos hid] at hx
          simp at hx
        · rw [if_neg hid] at hx
          exact hx
  · intro gid
    unfold setGameState activeCount
    simp only [List.countP_map]
    refine List.countP_mono_left ?_
    intro x _ hx
    simp only [Function.comp] at hx
    by_cases hid : (x.id == gid) = true
    · rw [if_pos hid] at hx
      simp at hx
    · rw [if_neg hid] at hx
      exact hx

/-- Witness for C6's amended theorem: creating a game in an empty store
yields exactly one ACTIVE game for the channel. -/
theorem activeCount_ops_witness :
    activeCount (createGame emptyDB "s" "c" "apple" "g1" 0).2 "s" "c" = 1 :=
  (activeCount_ops emptyDB "s" "c").1 (by decide) "apple" "g1" 0

/-- Sum of the recorded Deposits' amounts for a `(gameId, token)`. -/
def depositsSum (db : DB) (gameId token : String) : Int :=
  ((db.deposits.filter fun d => d.gameId == gameId && d.token == token).map
    (·.amount)).sum

/-- C2 counterexample scenario: create game g1, deposit 500 NATIVE into
it, then roll over (with no winner) to game g2. -/
def c2db : DB :=
  (rolloverToNewGame
    (addDeposit (createGame emptyDB "s" "c" "apple" "g1" 0).2
      "g1" "alice" "NATIVE" 500 "d1" 1)
    "s" "c" "beach" "g2" 2).2.1

/-- C2 counterexample: after a rollover credit, game g2's pool tracks
500 NATIVE while the sum of g2's recorded deposits is 0 — a
rollover-credit operation breaks the claimed deposits-sum = tracked
equality for the credited game. -/
theorem pool_deposit_mismatch_after_rollover :
    getPoolBalance c2db "g2" "NATIVE" = 500 ∧
    depositsSum c2db "g2" "NATIVE" = 0 ∧
    ¬ depositsSum c2db "g2" "NATIVE" =
        getPoolBalance c2db "g2" "NATIVE" := by
  decide

/-- The additive credit operations of the core: a deposit
(`addDeposit`, which also credits the pool) and a bare rollover pool
credit (the `addToPool` call of `rolloverToNewGame`). -/
inductive CreditOp
  | deposit (gameId sender token : String) (amount : Int)
      (depositId : String) (now : Nat)
  | rolloverCredit (gameId token : String) (amount : Int) (now : Nat)

def applyCreditOp (db : DB) : CreditOp → DB
  | .deposit g s t a i n => addDeposit db g s t a i n
  | .rolloverCredit g t a n => addToPool db g t a n

def applyCreditOps (db : DB) (ops : List CreditOp) : DB :=
  ops.foldl applyCreditOp db

/-- Amount an operation credits to the `(gameId, token)` pool. -/
def opPoolCredit (gameId token : String) : CreditOp → Int
  | .deposit g _ t a _ _ => if g = gameId ∧ t = token then a else 0
  | .rolloverCredit g t a _ => if g = gameId ∧ t = token then a else 0

/-- Amount an operation records as a Deposit for `(gameId, token)`. -/
def opDepositAmount (gameId token : String) : CreditOp → Int
  | .deposit g _ t a _ _ => if g = gameId ∧ t = token then a else 0
  | .rolloverCredit _ _ _ _ => 0

/-- Amount an operation rollover-credits to `(gameId, token)` without a
Deposit row. -/
def opRolloverAmount (gameId token : String) : CreditOp → Int
  | .deposit _ _ _ _ _ _ => 0
  | .rolloverCredit g t a _ => if g = gameId ∧ t = token then a else 0

lemma find?_map_of_pred {α : Type} (l : List α) (f : α → α) (p : α → Bool)
    (h : ∀ r, p (f r) = p r) : (l.map f).find? p = (l.find? p).map f := by
  induction l with
  | nil => rfl
  | cons x xs ih =>
    simp only [List.map_cons, List.find?]
    rw [h x]
    cases hx : p x
    · simpa using ih
    · rfl

lemma getPool_addToPool (db : DB) (g t g' t' : String) (a : Int) (n : Nat) :
    getPool (addToPool db g t a n) g' t' =
      if g = g' ∧ t = t' then
        (getPool db g t).map (fun ex =>
          ⟨g', t', ex.trackedBalance + a, n⟩) |>.getD ⟨g', t', a, n⟩ |> some
      else getPool db g' t' := by
  unfold addToPool
  cases hfind : getPool db g t with
  | none =>
    unfold getPool at *
    rw [List.find?_append]
    by_cases hk : g = g' ∧ t = t'
    · rw [if_pos hk]
      obtain ⟨rfl, rfl⟩ := hk
      rw [hfind]
      simp [List.find?]
    · rw [if_neg hk]
      have hone : (List.find? (fun r => r.gameId == g' && r.token == t')
          [(⟨g, t, a, n⟩ : PoolRow)]) = none := by
        simp only [List.find?]
        have hfalse : ((⟨g, t, a, n⟩ : PoolRow).gameId == g' &&
            (⟨g, t, a, n⟩ : PoolRow).token == t') = false := by
          by_contra hcon
          simp only [Bool.not_eq_false, Bool.and_eq_true, beq_iff_eq] at hcon
          exact hk ⟨hcon.1, hcon.2⟩
        rw [hfalse]
      rw [hone]
      cases List.find? (fun r => r.gameId == g' && r.token == t') db.pools <;>
        rfl
  | some ex =>
    unfold getPool at *
    have hpres : ∀ r : PoolRow,
        ((fun r => r.gameId == g' && r.token == t')
          (if r.gameId == g && r.token == t then
            { r with trackedBalance := ex.trackedBalance + a
                   , lastUpdated := n }
          else r)) =
        (fun r => r.gameId == g' && r.token == t') r := by
      intro r
      by_cases hr : (r.gameId == g && r.token == t) = true
      · rw [if_pos hr]
      · rw [if_neg hr]
    rw [find?_map_of_pred _ _ _ hpres]
    by_cases hk : g = g' ∧ t = t'
    · rw [if_pos hk]
      obtain ⟨rfl, rfl⟩ := hk
      rw [hfind]
      have hex := List.find?_some hfind
      simp only [Bool.and_eq_true, beq_iff_eq] at hex
      dsimp only [Option.map]
      rw [if_pos (by simp [hex.1, hex.2])]
      simp [hex.1, hex.2]
    · rw [if_neg hk]
      cases hfind' : db.pools.find? fun r => r.gameId == g' && r.token == t' with
      | none => rfl
      | some r =>
        have hr := List.find?_some hfind'
        simp only [Bool.and_eq_true, beq_iff_eq] at hr
        dsimp only [Option.map]
        rw [if_neg (by
          simp only [Bool.and_eq_true, beq_iff_eq, hr.1, hr.2]
          intro hcon
          exact hk ⟨hcon.1.symm, hcon.2.symm⟩)]

lemma getPoolBalance_addToPool (db : DB) (g t g' t' : String) (a : Int)
    (n : Nat) :
    getPoolBalance (addToPool db g t a n) g' t' =
      getPoolBalance db g' t' + (if g = g' ∧ t = t' then a else 0) := by
  unfold getPoolBalance
  rw [getPool_addToPool]
  by_cases hk : g = g' ∧ t = t'
  · rw [if_pos hk, if_pos hk]
    obtain ⟨rfl, rfl⟩ := hk
    cases hfind : getPool db g t <;> simp [hfind]
  · rw [if_neg hk, if_neg hk]
    cases getPool db g' t' <;> simp

lemma getPoolBalance_addDeposit (db : DB) (g s t g' t' : String) (a : Int)
    (i : String) (n : Nat) :
    getPoolBalance (addDeposit db g s t a i n) g' t' =
      getPoolBalance db g' t' + (if g = g' ∧ t = t' then a else 0) := by
  unfold addDeposit
  exact getPoolBalance_addToPool _ g t g' t' a n

lemma depositsSum_addToPool (db : DB) (g t g' t' : String) (a : Int)
    (n : Nat) :
    depositsSum (addToPool db g t a n) g' t' = depositsSum db g' t' := by
  unfold addToPool
  cases getPool db g t <;> rfl

lemma depositsSum_addDeposit (db : DB) (g s t g' t' : String) (a : Int)
    (i : String) (n : Nat) :
    depositsSum (addDeposit db g s t a i n) g' t' =
      depositsSum db g' t' + (if g = g' ∧ t = t' then a else 0) := by
  unfold addDeposit
  rw [depositsSum_addToPool]
  unfold depositsSum
  rw [List.filter_append, List.map_append, List.sum_append]
  by_cases hk : g = g' ∧ t = t'
  · obtain ⟨rfl, rfl⟩ := hk
    simp [List.filter]
  · rw [if_neg hk]
    have : (List.filter (fun d => d.gameId == g' && d.token == t')
        [(⟨i, g, s, t, a, n⟩ : DepositRow)]) = [] := by
      simp only [List.filter]
      have : ((⟨i, g, s, t, a, n⟩ : DepositRow).gameId == g' &&
          (⟨i, g, s, t, a, n⟩ : DepositRow).token == t') = false := by
        by_contra hcon
        simp only [Bool.not_eq_false, Bool.and_eq_true, beq_iff_eq] at hcon
        exact hk ⟨hcon.1, hcon.2⟩
      rw [this]
    rw [this]
    simp

lemma applyCreditOps_balance (ops : List CreditOp) (db : DB)
    (g t : String) :
    getPoolBalance (applyCreditOps db ops) g t =
      getPoolBalance db g t + (ops.map (opPoolCredit g t)).sum := by
  induction ops generalizing db with
  | nil => simp [applyCreditOps]
  | cons op rest ih =>
    show getPoolBalance (applyCreditOps (applyCreditOp db op) rest) g t = _
    rw [ih]
    cases op with
    | deposit g0 s0 t0 a0 i0 n0 =>
      simp only [applyCreditOp, List.map_cons, List.sum_cons, opPoolCredit]
      rw [getPoolBalance_addDeposit]
      ring
    | rolloverCredit g0 t0 a0 n0 =>
      simp only [applyCreditOp, List.map_cons, List.sum_cons, opPoolCredit]
      rw [getPoolBalance_addToPool]
      ring

lemma applyCreditOps_depositsSum (ops : List CreditOp) (db : DB)
    (g t : String) :
    depositsSum (applyCreditOps db ops) g t =
      depositsSum db g t + (ops.map (opDepositAmount g t)).sum := by
  induction ops generalizing db with
  | nil => simp [applyCreditOps]
  | cons op rest ih =>
    show depositsSum (applyCreditOps (applyCreditOp db op) rest) g t = _
    rw [ih]
    cases op with
    | deposit g0 s0 t0 a0 i0 n0 =>
      simp only [applyCreditOp, List.map_cons, List.sum_cons, opDepositAmount]
      rw [depositsSum_addDeposit]
      ring
    | rolloverCredit g0 t0 a0 n0 =>
      simp only [applyCreditOp, List.map_cons, List.sum_cons, opDepositAmount]
      rw [depositsSum_addToPool]
      ring

lemma opPoolCredit_split (g t : String) (op : CreditOp) :
    opPoolCredit g t op = opDepositAmount g t op + opRolloverAmount g t op := by
  cases op <;> simp [opPoolCredit, opDepositAmount, opRolloverAmount]

lemma sum_credit_split (ops : List CreditOp) (g t : String) :
    (ops.map (opPoolCredit g t)).sum =
      (ops.map (opDepositAmount g t)).sum +
        (ops.map (opRolloverAmount g t)).sum := by
  induction ops with
  | nil => simp
  | cons op rest ih =>
    simp only [List.map_cons, List.sum_cons, opPoolCredit_split, ih]
    ring

/-- C2 amended: for every `(gameId, token)`, after any sequence of
deposit and rollover-credit operations from the empty store, the pool's
tracked balance equals the sum of its recorded Deposits' amounts PLUS
the total of rollover credits applied to it; the claimed equality with
the deposit sum alone holds exactly when no rollover credit touched
that pool. -/
theorem pool_balance_decomposition (ops : List CreditOp)
    (gameId token : String) :
    (getPoolBalance (applyCreditOps emptyDB ops) gameId token =
      depositsSum (applyCreditOps emptyDB ops) gameId token +
        (ops.map (opRolloverAmount gameId token)).sum) ∧
    ((∀ op ∈ ops, opRolloverAmount gameId token op = 0) →
      depositsSum (applyCreditOps emptyDB ops) gameId token =
        getPoolBalance (applyCreditOps emptyDB ops) gameId token) := by
  have hbal := applyCreditOps_balance ops emptyDB gameId token
  have hdep := applyCreditOps_depositsSum ops emptyDB gameId token
  have hsplit := sum_credit_split ops gameId token
  have hempty_bal : getPoolBalance emptyDB gameId token = 0 := rfl
  have hempty_dep : depositsSum emptyDB gameId token = 0 := rfl
  constructor
  · rw [hbal, hdep, hsplit, hempty_bal, hempty_dep]
    ring
  · intro hz
    have : (ops.map (opRolloverAmount gameId token)).sum = 0 := by
      apply List.sum_eq_zero
      intro x hx
      obtain ⟨op, hop, rfl⟩ := List.mem_map.mp hx
      exact hz op hop
    rw [hbal, hdep, hsplit, hempty_bal, hempty_dep, this]
    ring

/-- Witness for C2's amended theorem: one plain deposit of 500, no
rollover credits — the deposit sum equals the tracked balance. -/
theorem pool_balance_decomposition_witness :
    depositsSum (applyCreditOps emptyDB
      [CreditOp.deposit "g1" "alice" "NATIVE" 500 "d1" 1]) "g1" "NATIVE" =
    getPoolBalance (applyCreditOps emptyDB
      [CreditOp.deposit "g1" "alice" "NATIVE" 500 "d1" 1]) "g1" "NATIVE" :=
  (pool_balance_decomposition
    [CreditOp.deposit "g1" "alice" "NATIVE" 500 "d1" 1] "g1" "NATIVE").2
    (by intro op hop; simp at hop; subst hop; rfl)

lemma cas_true_iff (db : DB) (gid w : String) (n : Nat) :
    (casToPayoutPending db gid w n).1 = true ↔
      ∃ g, getGame db gid = some g ∧ g.state = GameState.ACTIVE := by
  unfold casToPayoutPending
  cases hget : getGame db gid with
  | none => simp
  | some g =>
    dsimp only
    by_cases hs : g.state ≠ GameState.ACTIVE
    · rw [if_pos hs]
      simp [hs]
    · rw [if_neg hs]
      push_neg at hs
      simp [hs]

lemma cas_fail_eq (db : DB) (gid w : String) (n : Nat)
    (h : ∀ g, getGame db gid = some g → g.state ≠ GameState.ACTIVE) :
    casToPayoutPending db gid w n = (false, db) := by
  unfold casToPayoutPending
  cases hget : getGame db gid with
  | none => rfl
  | some g =>
    dsimp only
    rw [if_pos (h g hget)]

lemma getGame_casSuccess (db : DB) (gid w : String) (n : Nat) (g : Game)
    (hget : getGame db gid = some g) (hact : g.state = GameState.ACTIVE) :
    (casToPayoutPending db gid w n).1 = true ∧
    getGame (casToPayoutPending db gid w n).2 gid =
      some { g with state := .PAYOUT_PENDING
                  , winnerUserId := some w
                  , wonAt := some n } := by
  unfold casToPayoutPending
  rw [hget]
  dsimp only
  rw [if_neg (by simp [hact])]
  refine ⟨rfl, ?_⟩
  unfold getGame at *
  dsimp only
  have hpres : ∀ x : Game,
      ((fun y => y.id == gid)
        (if x.id == gid then
          { x with state := GameState.PAYOUT_PENDING
                 , winnerUserId := some w, wonAt := some n }
        else x)) = ((fun y => y.id == gid) x) := by
    intro x
    by_cases hx : (x.id == gid) = true
    · rw [if_pos hx]
    · rw [if_neg hx]
  rw [find?_map_of_pred _ _ _ hpres, hget]
  have hid : (g.id == gid) = true := by
    have := List.find?_some hget
    simpa using this
  dsimp only [Option.map]
  rw [if_pos hid]

/-- Sequential application of `casToPayoutPending` calls on one game id:
returns the final store and the list of winners whose call returned
`true` (in order). -/
def casSeq (db : DB) (gameId : String) :
    List (String × Nat) → DB × List String
  | [] => (db, [])
  | (w, n) :: rest =>
    let r := casToPayoutPending db gameId w n
    let next := casSeq r.2 gameId rest
    (next.1, (if r.1 then [w] else []) ++ next.2)

lemma casSeq_stuck (db : DB) (gid : String) (calls : List (String × Nat))
    (g : Game) (hget : getGame db gid = some g)
    (hpp : g.state = GameState.PAYOUT_PENDING) :
    casSeq db gid calls = (db, []) := by
  induction calls with
  | nil => rfl
  | cons c rest ih =>
    obtain ⟨w0, n0⟩ := c
    have hfail : casToPayoutPending db gid w0 n0 = (false, db) := by
      refine cas_fail_eq db gid w0 n0 ?_
      intro g' hg'
      rw [hget] at hg'
      cases hg'
      rw [hpp]
      intro hcon
      cases hcon
    show (let r := casToPayoutPending db gid w0 n0
      let next := casSeq r.2 gid rest
      (next.1, (if r.1 then [w0] else []) ++ next.2)) = (db, [])
    rw [hfail]
    dsimp only
    rw [ih]
    rfl

lemma casSeq_spec (db : DB) (gid : String) (calls : List (String × Nat)) :
    (casSeq db gid calls).2.length ≤ 1 ∧
    ∀ w, (casSeq db gid calls).2 = [w] →
      ∃ g, getGame (casSeq db gid calls).1 gid = some g ∧
        g.winnerUserId = some w ∧ g.state = GameState.PAYOUT_PENDING := by
  induction calls generalizing db with
  | nil =>
    refine ⟨by simp [casSeq], ?_⟩
    intro w h
    simp [casSeq] at h
  | cons c rest ih =>
    obtain ⟨w0, n0⟩ := c
    have hunfold : casSeq db gid ((w0, n0) :: rest) =
        ((casSeq (casToPayoutPending db gid w0 n0).2 gid rest).1,
          (if (casToPayoutPending db gid w0 n0).1 then [w0] else []) ++
            (casSeq (casToPayoutPending db gid w0 n0).2 gid rest).2) := rfl
    by_cases hsucc : (casToPayoutPending db gid w0 n0).1 = true
    · obtain ⟨g, hget, hact⟩ := (cas_true_iff db gid w0 n0).mp hsucc
      have hafter := (getGame_casSuccess db gid w0 n0 g hget hact).2
      have hstuck := casSeq_stuck (casToPayoutPending db gid w0 n0).2 gid rest
        _ hafter rfl
      rw [hunfold, hstuck, hsucc]
      refine ⟨by simp, ?_⟩
      intro w hw
      simp only [if_true, List.append_nil] at hw ⊢
      cases hw
      exact ⟨_, hafter, rfl, rfl⟩
    · have hfalse : (casToPayoutPending db gid w0 n0).1 = false := by
        cases h : (casToPayoutPending db gid w0 n0).1
        · rfl
        · exact absurd h hsucc
      have hfail : casToPayoutPending db gid w0 n0 = (false, db) := by
        refine cas_fail_eq db gid w0 n0 ?_
        intro g' hg' hcon
        exact hsucc ((cas_true_iff db gid w0 n0).mpr ⟨g', hg', hcon⟩)
      rw [hunfold, hfail]
      dsimp only
      exact ih db

/-- C1: the win-lock.  `casToPayoutPending` succeeds exactly when the
game exists and is ACTIVE; on failure (missing game or already
PAYOUT_PENDING) it returns `false` and mutates nothing; on success it
moves the game to PAYOUT_PENDING with `winnerUserId` and `wonAt` set.
Consequently, over any sequence of calls on the same game at most one
call succeeds, and when one does, the final game carries that caller's
winner id, never overwritten by later calls. -/
theorem casToPayoutPending_single_winner :
    (∀ (db : DB) (gid w : String) (n : Nat),
      ((casToPayoutPending db gid w n).1 = true ↔
        ∃ g, getGame db gid = some g ∧ g.state = GameState.ACTIVE) ∧
      ((casToPayoutPending db gid w n).1 = false →
        casToPayoutPending db gid w n = (false, db)) ∧
      (∀ g, getGame db gid = some g → g.state = GameState.ACTIVE →
        getGame (casToPayoutPending db gid w n).2 gid =
          some { g with state := .PAYOUT_PENDING
                      , winnerUserId := some w, wonAt := some n })) ∧
    ∀ (db : DB) (gid : String) (calls : List (String × Nat)),
      (casSeq db gid calls).2.length ≤ 1 ∧
      ∀ w, (casSeq db gid calls).2 = [w] →
        ∃ g, getGame (casSeq db gid calls).1 gid = some g ∧
          g.winnerUserId = some w ∧ g.state = GameState.PAYOUT_PENDING := by
  refine ⟨?_, casSeq_spec⟩
  intro db gid w n
  refine ⟨cas_true_iff db gid w n, ?_, ?_⟩
  · intro hfalse
    refine cas_fail_eq db gid w n ?_
    intro g hg hcon
    have := (cas_true_iff db gid w n).mpr ⟨g, hg, hcon⟩
    rw [this] at hfalse
    cases hfalse
  · intro g hg hact
    exact (getGame_casSuccess db gid w n g hg hact).2

/-- Concrete scenario for C1's witness: one ACTIVE game, two competing
winning calls. -/
def c1db : DB :=
  { emptyDB with games := [⟨"g1", "s", "c", .ACTIVE, "apple", none, none, 0, 1⟩] }

/-- Witness for C1: of two sequential win-lock calls on the same ACTIVE
game, exactly the first succeeds and the recorded winner stays
"alice". -/
theorem casToPayoutPending_single_winner_witness :
    (casSeq c1db "g1" [("alice", 1), ("bob", 2)]).2 = ["alice"] ∧
    ∃ g, getGame (casSeq c1db "g1" [("alice", 1), ("bob", 2)]).1 "g1" = some g ∧
      g.winnerUserId = some "alice" ∧ g.state = GameState.PAYOUT_PENDING := by
  refine ⟨by decide, ?_⟩
  exact (casToPayoutPending_single_winner.2 c1db "g1"
    [("alice", 1), ("bob", 2)]).2 "alice" (by decide)

lemma getPoolBalance_none (db : DB) (g t : String)
    (h : getPool db g t = none) : getPoolBalance db g t = 0 := by
  unfold getPoolBalance
  rw [h]

lemma addToPool_games (db : DB) (g t : String) (a : Int) (n : Nat) :
    (addToPool db g t a n).games = db.games := by
  unfold addToPool
  cases getPool db g t <;> rfl

lemma rolloverFold_games (curId newId : String) (now : Nat)
    (ts : List String) :
    ∀ (d : DB) (racc : List (String × Int)),
    ((ts.foldl (rolloverStep curId newId now) (d, racc)).1).games =
      d.games := by
  induction ts with
  | nil => intro d racc; rfl
  | cons t0 rest ih =>
    intro d racc
    rw [List.foldl_cons]
    by_cases hpos : getPoolBalance d curId t0 > 0
    · have hstep : rolloverStep curId newId now (d, racc) t0 =
          (addToPool d newId t0 (getPoolBalance d curId t0) now,
            racc ++ [(t0, getPoolBalance d curId t0)]) := by
        unfold rolloverStep
        dsimp only
        rw [if_pos hpos]
      rw [hstep]
      rw [ih (addToPool d newId t0 (getPoolBalance d curId t0) now)
        (racc ++ [(t0, getPoolBalance d curId t0)])]
      exact addToPool_games d newId t0 (getPoolBalance d curId t0) now
    · have hstep : rolloverStep curId newId now (d, racc) t0 = (d, racc) := by
        unfold rolloverStep
        dsimp only
        rw [if_neg hpos]
      rw [hstep]
      exact ih d racc

lemma rolloverFold_balances (oldId newId : String) (now : Nat)
    (hneq : oldId ≠ newId) :
    ∀ (ts : List String) (d : DB) (racc : List (String × Int)),
    ts.Nodup →
    (∀ t ∈ ts, getPool d newId t = none) →
    (∀ t', getPoolBalance
        ((ts.foldl (rolloverStep oldId newId now) (d, racc)).1) oldId t' =
      getPoolBalance d oldId t') ∧
    (∀ t', t' ∉ ts →
      getPoolBalance
        ((ts.foldl (rolloverStep oldId newId now) (d, racc)).1) newId t' =
      getPoolBalance d newId t') ∧
    (∀ t ∈ ts, 0 < getPoolBalance d oldId t →
      getPoolBalance
        ((ts.foldl (rolloverStep oldId newId now) (d, racc)).1) newId t =
      getPoolBalance d oldId t) := by
  intro ts
  induction ts with
  | nil =>
    intro d racc _ _
    exact ⟨fun t' => rfl, fun t' _ => rfl,
      fun t ht => absurd ht (List.not_mem_nil t)⟩
  | cons t0 rest ih =>
    intro d racc hnd hnone
    obtain ⟨hn0, hndrest⟩ := List.nodup_cons.mp hnd
    rw [List.foldl_cons]
    by_cases hpos : getPoolBalance d oldId t0 > 0
    · have hstep : rolloverStep oldId newId now (d, racc) t0 =
          (addToPool d newId t0 (getPoolBalance d oldId t0) now,
            racc ++ [(t0, getPoolBalance d oldId t0)]) := by
        unfold rolloverStep
        dsimp only
        rw [if_pos hpos]
      rw [hstep]
      have hold : ∀ t', getPoolBalance
          (addToPool d newId t0 (getPoolBalance d oldId t0) now) oldId t' =
          getPoolBalance d oldId t' := by
        intro t'
        rw [getPoolBalance_addToPool]
        rw [if_neg (by intro hcon; exact hneq hcon.1.symm)]
        ring
      have hrestnone : ∀ t ∈ rest, getPool
          (addToPool d newId t0 (getPoolBalance d oldId t0) now) newId t =
          none := by
        intro t ht
        rw [getPool_addToPool]
        rw [if_neg (by intro hcon; exact hn0 (hcon.2 ▸ ht))]
        exact hnone t (List.mem_cons_of_mem _ ht)
      obtain ⟨ihold, ihuntouched, ihnew⟩ := ih
        (addToPool d newId t0 (getPoolBalance d oldId t0) now)
        (racc ++ [(t0, getPoolBalance d oldId t0)]) hndrest hrestnone
      refine ⟨?_, ?_, ?_⟩
      · intro t'
        rw [ihold t', hold t']
      · intro t' ht'
        have ht0 : t' ≠ t0 := fun hcon => ht' (hcon ▸ List.mem_cons_self t0 rest)
        have htrest : t' ∉ rest := fun hcon =>
          ht' (List.mem_cons_of_mem _ hcon)
        rw [ihuntouched t' htrest]
        rw [getPoolBalance_addToPool]
        rw [if_neg (by intro hcon; exact ht0 hcon.2.symm)]
        ring
      · intro t ht hpos'
        rcases List.mem_cons.mp ht with rfl | htrest
        · rw [ihuntouched t hn0]
          rw [getPoolBalance_addToPool]
          rw [if_pos ⟨rfl, rfl⟩]
          rw [getPoolBalance_none d newId t (hnone t (List.mem_cons_self t rest))]
          ring
        · rw [ihnew t htrest (by rw [hold t]; exact hpos')]
          exact hold t
    · have hstep : rolloverStep oldId newId now (d, racc) t0 = (d, racc) := by
        unfold rolloverStep
        dsimp only
        rw [if_neg hpos]
      rw [hstep]
      have hrestnone : ∀ t ∈ rest, getPool d newId t = none := fun t ht =>
        hnone t (List.mem_cons_of_mem _ ht)
      obtain ⟨ihold, ihuntouched, ihnew⟩ := ih d racc hndrest hrestnone
      refine ⟨ihold, ?_, ?_⟩
      · intro t' ht'
        exact ihuntouched t' fun hcon => ht' (List.mem_cons_of_mem _ hcon)
      · intro t ht hpos'
        rcases List.mem_cons.mp ht with rfl | htrest
        · exact absurd hpos' hpos
        · exact ihnew t htrest hpos'

lemma find?_id_of_nodup (l : List Game) (g : Game) (hmem : g ∈ l)
    (hnd : (l.map (·.id)).Nodup) :
    l.find? (fun x => x.id == g.id) = some g := by
  induction l with
  | nil => cases hmem
  | cons x xs ih =>
    simp only [List.map_cons, List.nodup_cons] at hnd
    rcases List.mem_cons.mp hmem with rfl | hmem'
    · simp [List.find?]
    · have hx : (x.id == g.id) = false := by
        by_contra hcon
        simp only [Bool.not_eq_false, beq_iff_eq] at hcon
        exact hnd.1 (hcon ▸ List.mem_map.mpr ⟨g, hmem', rfl⟩)
      simp only [List.find?, hx]
      exact ih hmem' hnd.2

lemma getPool_none_of_fresh (db : DB) (nid t : String)
    (h : ∀ r ∈ db.pools, r.gameId ≠ nid) : getPool db nid t = none := by
  unfold getPool
  refine List.find?_eq_none.mpr ?_
  intro r hr
  simp only [Bool.and_eq_true, beq_iff_eq, not_and]
  intro hcon
  exact absurd hcon (h r hr)

lemma mem_getPoolTokens_of_balance (db : DB) (gid t : String)
    (h : getPoolBalance db gid t ≠ 0) : t ∈ getPoolTokens db gid := by
  unfold getPoolBalance at h
  cases hfind : getPool db gid t with
  | none => rw [hfind] at h; exact absurd rfl h
  | some r =>
    unfold getPool at hfind
    have hmem := List.mem_of_find?_eq_some hfind
    have hpred := List.find?_some hfind
    simp only [Bool.and_eq_true, beq_iff_eq] at hpred
    unfold getPoolTokens
    refine List.mem_map.mpr ⟨r, ?_, hpred.2⟩
    exact List.mem_filter.mpr ⟨hmem, by simp [hpred.1]⟩

lemma rollover_unfold (db : DB) (s c w nid : String) (now : Nat) (g1 : Game)
    (h1 : getCurrentGame db s c = some g1) :
    rolloverToNewGame db s c w nid now =
      ((createGame db s c w nid now).1,
        ((getPoolTokens db g1.id).foldl
          (rolloverStep g1.id nid now)
          (setGameState (createGame db s c w nid now).2 g1.id
            GameState.PAYOUT_PENDING, [])).1,
        ((getPoolTokens db g1.id).foldl
          (rolloverStep g1.id nid now)
          (setGameState (createGame db s c w nid now).2 g1.id
            GameState.PAYOUT_PENDING, [])).2) := by
  unfold rolloverToNewGame startNewGame
  rw [h1]
  rfl

/-- C5: rollover with a current winnerless game G1: the new game G2 is
stored ACTIVE under the fresh id; G1 is left PAYOUT_PENDING with no
winnerUserId; every token of G1's pool with positive tracked balance is
credited with the same amount to G2's pool; and G1's pool is not
debited. -/
theorem rollover_spec (db : DB) (s c w nid : String) (now : Nat) (g1 : Game)
    (h1 : getCurrentGame db s c = some g1)
    (h2 : g1.winnerUserId = none)
    (hids : (db.games.map (·.id)).Nodup)
    (hfreshg : ∀ g ∈ db.games, g.id ≠ nid)
    (hfreshp : ∀ r ∈ db.pools, r.gameId ≠ nid)
    (hnd : (getPoolTokens db g1.id).Nodup) :
    (rolloverToNewGame db s c w nid now).1.state = GameState.ACTIVE ∧
    getGame (rolloverToNewGame db s c w nid now).2.1 nid =
      some (rolloverToNewGame db s c w nid now).1 ∧
    (∃ g1', getGame (rolloverToNewGame db s c w nid now).2.1 g1.id =
      some g1' ∧ g1'.state = GameState.PAYOUT_PENDING ∧
      g1'.winnerUserId = none) ∧
    (∀ t, 0 < getPoolBalance db g1.id t →
      getPoolBalance (rolloverToNewGame db s c w nid now).2.1 nid t =
        getPoolBalance db g1.id t) ∧
    (∀ t, getPoolBalance (rolloverToNewGame db s c w nid now).2.1 g1.id t =
      getPoolBalance db g1.id t) := by
  have hg1mem : g1 ∈ db.games := List.mem_of_find?_eq_some h1
  have hg1id : g1.id ≠ nid := hfreshg g1 hg1mem
  rw [rollover_unfold db s c w nid now g1 h1]
  have hpres : ∀ (tid : String) (x : Game),
      ((fun y => y.id == tid)
        (if x.id == g1.id then { x with state := GameState.PAYOUT_PENDING }
         else x)) = ((fun y => y.id == tid) x) := by
    intro tid x
    by_cases hx : (x.id == g1.id) = true
    · rw [if_pos hx]
    · rw [if_neg hx]
  have hGamesFold : ((getPoolTokens db g1.id).foldl
      (rolloverStep g1.id nid now)
      (setGameState (createGame db s c w nid now).2 g1.id
        GameState.PAYOUT_PENDING, [])).1.games =
      (db.games ++ [(createGame db s c w nid now).1]).map
        (fun x => if x.id == g1.id then
          { x with state := GameState.PAYOUT_PENDING } else x) :=
    rolloverFold_games g1.id nid now (getPoolTokens db g1.id) _ []
  have hnewid : (createGame db s c w nid now).1.id = nid := rfl
  have hballs := rolloverFold_balances g1.id nid now hg1id
    (getPoolTokens db g1.id)
    (setGameState (createGame db s c w nid now).2 g1.id
      GameState.PAYOUT_PENDING) [] hnd
    (fun t' _ => getPool_none_of_fresh db nid t' hfreshp)
  refine ⟨rfl, ?_, ?_, ?_, ?_⟩
  · show getGame _ nid = _
    unfold getGame
    rw [hGamesFold]
    rw [find?_map_of_pred _ _ _ (hpres nid)]
    rw [List.find?_append]
    have hl : db.games.find? (fun x => x.id == nid) = none :=
      List.find?_eq_none.mpr (fun x hx => by
        simp only [beq_iff_eq]
        exact hfreshg x hx)
    rw [hl]
    have hr : ([(createGame db s c w nid now).1].find?
        (fun x => x.id == nid)) = some (createGame db s c w nid now).1 := by
      simp [List.find?, hnewid]
    rw [hr]
    have hng : ¬ (((createGame db s c w nid now).1.id == g1.id) = true) := by
      rw [hnewid]
      simp only [beq_iff_eq]
      exact fun hcon => hg1id hcon.symm
    simp only [Option.or, Option.map]
    rw [if_neg hng]
  · refine ⟨{ g1 with state := GameState.PAYOUT_PENDING }, ?_, rfl, h2⟩
    show getGame _ g1.id = _
    unfold getGame
    rw [hGamesFold]
    rw [find?_map_of_pred _ _ _ (hpres g1.id)]
    rw [List.find?_append]
    rw [find?_id_of_nodup db.games g1 hg1mem hids]
    simp only [Option.or, Option.map]
    rw [if_pos (by simp)]
  · intro t hpos
    have hmem := mem_getPoolTokens_of_balance db g1.id t (ne_of_gt hpos)
    exact hballs.2.2 t hmem hpos
  · intro t
    exact hballs.1 t

/-- Concrete store for C5's witness: one ACTIVE winnerless game g1 for
channel ("s","c") with pool exactly NATIVE: 500. -/
def c5db : DB :=
  { emptyDB with
      games := [⟨"g1", "s", "c", .ACTIVE, "apple", none, none, 0, 1⟩],
      pools := [⟨"g1", "NATIVE", 500, 0⟩],
      counters := [⟨"s", "c", 1⟩] }

/-- Witness for C5: rolling over c5db yields game g2 ACTIVE with pool
NATIVE: 500, leaves g1 PAYOUT_PENDING with no winner, and does not
debit g1's pool. -/
theorem rollover_spec_witness :
    (rolloverToNewGame c5db "s" "c" "beach" "g2" 3).1.state =
      GameState.ACTIVE ∧
    (∃ g1', getGame (rolloverToNewGame c5db "s" "c" "beach" "g2" 3).2.1
      "g1" = some g1' ∧ g1'.state = GameState.PAYOUT_PENDING ∧
      g1'.winnerUserId = none) ∧
    getPoolBalance (rolloverToNewGame c5db "s" "c" "beach" "g2" 3).2.1
      "g2" "NATIVE" = 500 ∧
    getPoolBalance (rolloverToNewGame c5db "s" "c" "beach" "g2" 3).2.1
      "g1" "NATIVE" = 500 := by
  have h := rollover_spec c5db "s" "c" "beach" "g2" 3
    ⟨"g1", "s", "c", .ACTIVE, "apple", none, none, 0, 1⟩
    (by decide) (by decide) (by decide)
    (by intro g hg; simp [c5db, emptyDB] at hg; subst hg; decide)
    (by intro r hr; simp [c5db, emptyDB] at hr; subst hr; decide)
    (by decide)
  refine ⟨h.1, h.2.2.1, ?_, ?_⟩
  · have := h.2.2.2.1 "NATIVE" (by decide)
    simpa using this
  · have := h.2.2.2.2 "NATIVE"
    simpa using this

/-- The Game Store's mutating operations (`src/db.ts`), as a syntax for
reachable stores. -/
inductive StoreOp
  | create (spaceId channelId targetWord gameId : String) (now : Nat)
  | winLock (gameId winnerUserId : String) (now : Nat)
  | setState (gameId : String) (state : GameState)
  | guessOp (gameId userId guess feedback guessId : String) (now : Nat)
  | poolCredit (gameId token : String) (amount : Int) (now : Nat)
  | depositOp (gameId sender token : String) (amount : Int)
      (depositId : String) (now : Nat)
  | payoutOp (gameId token : String) (amount : Int) (txHash : String)
      (status : PayoutStatus) (payoutId : String) (now : Nat)
  | eligibleOp (gameId userId : String)

def applyOp (db : DB) : StoreOp → DB
  | .create s c w gid n => (createGame db s c w gid n).2
  | .winLock gid w n => (casToPayoutPending db gid w n).2
  | .setState gid st => setGameState db gid st
  | .guessOp gid u g f i n => addGuess db gid u g f i n
  | .poolCredit g t a n => addToPool db g t a n
  | .depositOp g s t a i n => addDeposit db g s t a i n
  | .payoutOp g t a tx st i n => recordPayout db g t a tx st i n
  | .eligibleOp g u => addEligiblePlayer db g u

/-- A store reachable from the fresh database by store operations. -/
def runOps (ops : List StoreOp) : DB := ops.foldl applyOp emptyDB

/-- Current `gameNumberCounters` value for a channel (0 when the row is
absent). -/
def counterVal (db : DB) (spaceId channelId : String) : Nat :=
  match db.counters.find? fun r =>
      r.spaceId == spaceId && r.channelId == channelId with
  | some r => r.count
  | none => 0

/-- Highest `gameNumber` ever issued to a channel (0 when none). -/
def maxGameNumber (db : DB) (spaceId channelId : String) : Nat :=
  ((db.games.filter fun g =>
      g.spaceId == spaceId && g.channelId == channelId).map
    (·.gameNumber)).foldr max 0

/-- The per-channel counter always equals the highest issued number. -/
def CounterInv (db : DB) : Prop :=
  ∀ s c, counterVal db s c = maxGameNumber db s c

lemma foldr_max_append (l : List Nat) (x : Nat) :
    (l ++ [x]).foldr max 0 = max (l.foldr max 0) x := by
  induction l with
  | nil => simp
  | cons a as ih =>
    simp only [List.cons_append, List.foldr_cons, ih]
    omega

lemma createGame_number (db : DB) (s c w gid : String) (n : Nat) :
    (createGame db s c w gid n).1.gameNumber = counterVal db s c + 1 := by
  unfold createGame counterVal
  cases hf : db.counters.find? fun r =>
      r.spaceId == s && r.channelId == c <;> simp [hf]

lemma counterVal_createGame_same (db : DB) (s c w gid : String) (n : Nat) :
    counterVal (createGame db s c w gid n).2 s c = counterVal db s c + 1 := by
  unfold createGame counterVal
  cases hf : db.counters.find? fun r =>
      r.spaceId == s && r.channelId == c with
  | none =>
    simp only [hf]
    rw [List.find?_append, hf]
    simp [List.find?]
  | some r =>
    simp only [hf]
    have hpres : ∀ x : CounterRow,
        ((fun y => y.spaceId == s && y.channelId == c)
          (if x.spaceId == s && x.channelId == c then
            { x with count := r.count + 1 } else x)) =
        ((fun y => y.spaceId == s && y.channelId == c) x) := by
      intro x
      by_cases hx : (x.spaceId == s && x.channelId == c) = true
      · rw [if_pos hx]
      · rw [if_neg hx]
    rw [find?_map_of_pred _ _ _ hpres, hf]
    have hr := List.find?_some hf
    dsimp only [Option.map]
    rw [if_pos hr]

lemma counterVal_createGame_other (db : DB) (s c w gid : String) (n : Nat)
    (s' c' : String) (hne : ¬(s = s' ∧ c = c')) :
    counterVal (createGame db s c w gid n).2 s' c' =
      counterVal db s' c' := by
  unfold createGame counterVal
  cases hf : db.counters.find? fun r =>
      r.spaceId == s && r.channelId == c with
  | none =>
    simp only [hf]
    rw [List.find?_append]
    have hone : (List.find? (fun y => y.spaceId == s' && y.channelId == c')
        [(⟨s, c, 1⟩ : CounterRow)]) = none := by
      simp only [List.find?]
      have hfalse : ((⟨s, c, 1⟩ : CounterRow).spaceId == s' &&
          (⟨s, c, 1⟩ : CounterRow).channelId == c') = false := by
        by_contra hcon
        simp only [Bool.not_eq_false, Bool.and_eq_true, beq_iff_eq] at hcon
        exact hne ⟨hcon.1, hcon.2⟩
      rw [hfalse]
    rw [hone]
    cases db.counters.find? fun y => y.spaceId == s' && y.channelId == c' <;>
      rfl
  | some r =>
    simp only [hf]
    have hpres : ∀ x : CounterRow,
        ((fun y => y.spaceId == s' && y.channelId == c')
          (if x.spaceId == s && x.channelId == c then
            { x with count := r.count + 1 } else x)) =
        ((fun y => y.spaceId == s' && y.channelId == c') x) := by
      intro x
      by_cases hx : (x.spaceId == s && x.channelId == c) = true
      · rw [if_pos hx]
      · rw [if_neg hx]
    rw [find?_map_of_pred _ _ _ hpres]
    cases hf' : db.counters.find? fun y =>
        y.spaceId == s' && y.channelId == c' with
    | none => rfl
    | some r' =>
      have hr' := List.find?_some hf'
      simp only [Bool.and_eq_true, beq_iff_eq] at hr'
      dsimp only [Option.map]
      rw [if_neg (by
        simp only [Bool.and_eq_true, beq_iff_eq, hr'.1, hr'.2]
        intro hcon
        exact hne ⟨hcon.1.symm, hcon.2.symm⟩)]

lemma maxGN_createGame (db : DB) (s c w gid : String) (n : Nat)
    (s' c' : String) :
    maxGameNumber (createGame db s c w gid n).2 s' c' =
      if s = s' ∧ c = c' then
        max (maxGameNumber db s' c') (counterVal db s c + 1)
      else maxGameNumber db s' c' := by
  have hgames : (createGame db s c w gid n).2.games =
      db.games ++ [(createGame db s c w gid n).1] := rfl
  have hnum := createGame_number db s c w gid n
  have hfields : (createGame db s c w gid n).1.spaceId = s ∧
      (createGame db s c w gid n).1.channelId = c := ⟨rfl, rfl⟩
  unfold maxGameNumber
  rw [hgames, List.filter_append]
  by_cases hk : s = s' ∧ c = c'
  · rw [if_pos hk]
    obtain ⟨rfl, rfl⟩ := hk
    have hsing : (List.filter (fun g => g.spaceId == s && g.channelId == c)
        [(createGame db s c w gid n).1]) = [(createGame db s c w gid n).1] := by
      simp [List.filter, hfields.1, hfields.2]
    rw [hsing, List.map_append]
    simp only [List.map_cons, List.map_nil]
    rw [foldr_max_append, hnum]
  · rw [if_neg hk]
    have hsing : (List.filter (fun g => g.spaceId == s' && g.channelId == c')
        [(createGame db s c w gid n).1]) = [] := by
      simp only [List.filter]
      have hfalse : ((createGame db s c w gid n).1.spaceId == s' &&
          (createGame db s c w gid n).1.channelId == c') = false := by
        by_contra hcon
        simp only [Bool.not_eq_false, Bool.and_eq_true, beq_iff_eq,
          hfields.1, hfields.2] at hcon
        exact hk ⟨hcon.1, hcon.2⟩
      rw [hfalse]
    rw [hsing, List.append_nil]

lemma gameNumbers_map_preserve (l : List Game) (f : Game → Game)
    (h : ∀ g, (f g).spaceId = g.spaceId ∧ (f g).channelId = g.channelId ∧
      (f g).gameNumber = g.gameNumber) (s c : String) :
    (((l.map f).filter fun g =>
        g.spaceId == s && g.channelId == c).map (·.gameNumber)) =
      ((l.filter fun g =>
        g.spaceId == s && g.channelId == c).map (·.gameNumber)) := by
  induction l with
  | nil => rfl
  | cons x xs ih =>
    simp only [List.map_cons, List.filter]
    have hpred : ((f x).spaceId == s && (f x).channelId == c) =
        (x.spaceId == s && x.channelId == c) := by
      rw [(h x).1, (h x).2.1]
    rw [hpred]
    cases hx : (x.spaceId == s && x.channelId == c)
    · exact ih
    · simp only [List.map_cons, (h x).2.2, ih]

lemma counterInv_applyOp (db : DB) (op : StoreOp) (h : CounterInv db) :
    CounterInv (applyOp db op) := by
  cases op with
  | create s c w gid n =>
    intro s' c'
    show counterVal (createGame db s c w gid n).2 s' c' =
      maxGameNumber (createGame db s c w gid n).2 s' c'
    rw [maxGN_createGame]
    by_cases hk : s = s' ∧ c = c'
    · rw [if_pos hk]
      obtain ⟨rfl, rfl⟩ := hk
      rw [counterVal_createGame_same, h s c]
      omega
    · rw [if_neg hk]
      rw [counterVal_createGame_other db s c w gid n s' c' hk]
      exact h s' c'
  | winLock gid wi n =>
    intro s' c'
    show counterVal (casToPayoutPending db gid wi n).2 s' c' =
      maxGameNumber (casToPayoutPending db gid wi n).2 s' c'
    unfold casToPayoutPending
    cases hget : getGame db gid with
    | none => exact h s' c'
    | some g =>
      dsimp only
      by_cases hs : g.state ≠ GameState.ACTIVE
      · rw [if_pos hs]
        exact h s' c'
      · rw [if_neg hs]
        have hmap : maxGameNumber { db with games := db.games.map fun x =>
            if x.id == gid then
              { x with state := GameState.PAYOUT_PENDING
                     , winnerUserId := some wi, wonAt := some n }
            else x } s' c' = maxGameNumber db s' c' := by
          unfold maxGameNumber
          dsimp only
          rw [gameNumbers_map_preserve]
          intro g'
          by_cases hg' : (g'.id == gid) = true
          · rw [if_pos hg']
            exact ⟨rfl, rfl, rfl⟩
          · rw [if_neg hg']
            exact ⟨rfl, rfl, rfl⟩
        dsimp only
        rw [hmap]
        exact h s' c'
  | setState gid st =>
    intro s' c'
    show counterVal (setGameState db gid st) s' c' =
      maxGameNumber (setGameState db gid st) s' c'
    unfold setGameState
    have hmap : maxGameNumber { db with games := db.games.map fun x =>
        if x.id == gid then { x with state := st } else x } s' c' =
        maxGameNumber db s' c' := by
      unfold maxGameNumber
      dsimp only
      rw [gameNumbers_map_preserve]
      intro g'
      by_cases hg' : (g'.id == gid) = true
      · rw [if_pos hg']
        exact ⟨rfl, rfl, rfl⟩
      · rw [if_neg hg']
        exact ⟨rfl, rfl, rfl⟩
    rw [hmap]
    exact h s' c'
  | guessOp gid u g f i n => exact fun s' c' => h s' c'
  | poolCredit g t a n =>
    intro s' c'
    show counterVal (addToPool db g t a n) s' c' =
      maxGameNumber (addToPool db g t a n) s' c'
    unfold addToPool
    cases getPool db g t <;> exact h s' c'
  | depositOp g sndr t a i n =>
    intro s' c'
    show counterVal (addDeposit db g sndr t a i n) s' c' =
      maxGameNumber (addDeposit db g sndr t a i n) s' c'
    have hgg : (addDeposit db g sndr t a i n).games = db.games := by
      unfold addDeposit
      dsimp only
      exact addToPool_games _ g t a n
    have hcc : (addDeposit db g sndr t a i n).counters = db.counters := by
      unfold addDeposit addToPool
      dsimp only
      cases getPool { db with deposits :=
          db.deposits ++ [⟨i, g, sndr, t, a, n⟩] } g t <;> rfl
    unfold counterVal maxGameNumber
    rw [hgg, hcc]
    have h' := h s' c'
    unfold counterVal maxGameNumber at h'
    exact h'
  | payoutOp g t a tx st i n => exact fun s' c' => h s' c'
  | eligibleOp g u =>
    intro s' c'
    show counterVal (addEligiblePlayer db g u) s' c' =
      maxGameNumber (addEligiblePlayer db g u) s' c'
    unfold addEligiblePlayer
    dsimp only
    split <;> exact h s' c'

lemma counterInv_runOps_aux (ops : List StoreOp) :
    ∀ db, CounterInv db → CounterInv (ops.foldl applyOp db) := by
  induction ops with
  | nil => exact fun db h => h
  | cons op rest ih =>
    intro db h
    rw [List.foldl_cons]
    exact ih _ (counterInv_applyOp db op h)

lemma counterInv_runOps (ops : List StoreOp) : CounterInv (runOps ops) :=
  counterInv_runOps_aux ops emptyDB (fun _ _ => rfl)

/-- C7: in every store reachable by the Game Store's operations,
`createGame` allocates gameNumber = 1 + the highest previously issued
number for the channel; mechanically it always reads the dedicated
per-channel counter (allocating counter + 1 and persisting it), leaves
other channels' counters untouched, and sequential creation in one
channel yields 1, 2, 3 while a different channel independently starts
at 1. -/
theorem createGame_numbering :
    (∀ db, (∃ ops, db = runOps ops) → ∀ s c w gid n,
      (createGame db s c w gid n).1.gameNumber =
        maxGameNumber db s c + 1) ∧
    (∀ db s c (w gid : String) (n : Nat),
      (createGame db s c w gid n).1.gameNumber = counterVal db s c + 1 ∧
      counterVal (createGame db s c w gid n).2 s c =
        counterVal db s c + 1) ∧
    (∀ db s c (w gid : String) (n : Nat) (s' c' : String),
      ¬(s = s' ∧ c = c') →
      counterVal (createGame db s c w gid n).2 s' c' =
        counterVal db s' c') ∧
    ((createGame emptyDB "s" "c" "w1" "g1" 0).1.gameNumber = 1 ∧
      (createGame (createGame emptyDB "s" "c" "w1" "g1" 0).2
        "s" "c" "w2" "g2" 1).1.gameNumber = 2 ∧
      (createGame (createGame (createGame emptyDB "s" "c" "w1" "g1" 0).2
        "s" "c" "w2" "g2" 1).2 "s" "c" "w3" "g3" 2).1.gameNumber = 3 ∧
      (createGame (createGame (createGame emptyDB "s" "c" "w1" "g1" 0).2
        "s" "c" "w2" "g2" 1).2 "s" "d" "w4" "g4" 3).1.gameNumber = 1) := by
  refine ⟨?_, ?_, ?_, by decide⟩
  · rintro db ⟨ops, rfl⟩ s c w gid n
    rw [createGame_number, counterInv_runOps ops s c]
  · intro db s c w gid n
    exact ⟨createGame_number db s c w gid n,
      counterVal_createGame_same db s c w gid n⟩
  · intro db s c w gid n s' c' hne
    exact counterVal_createGame_other db s c w gid n s' c' hne

/-- Witness for C7: in the store reached by one creation for channel
("s","c"), the next creation for that channel allocates 1 + the highest
issued number, and the counter of channel ("s","d") is untouched. -/
theorem createGame_numbering_witness :
    (createGame (runOps [StoreOp.create "s" "c" "w1" "g1" 0])
      "s" "c" "w2" "g2" 1).1.gameNumber =
      maxGameNumber (runOps [StoreOp.create "s" "c" "w1" "g1" 0]) "s" "c"
        + 1 ∧
    counterVal (createGame emptyDB "s" "c" "w1" "g1" 0).2 "s" "d" =
      counterVal emptyDB "s" "d" :=
  ⟨createGame_numbering.1 (runOps [StoreOp.create "s" "c" "w1" "g1" 0])
    ⟨[StoreOp.create "s" "c" "w1" "g1" 0], rfl⟩ "s" "c" "w2" "g2" 1,
   createGame_numbering.2.2.1 emptyDB "s" "c" "w1" "g1" 0 "s" "d"
    (by decide)⟩

/-- Number of positions in a guess/feedback alignment carrying letter
`c` that are marked yellow. -/
def yellowsIn (gs : List Char) (cols : List Color) (c : Char) : Nat :=
  match gs, cols with
  | g0 :: gs', col0 :: cols' =>
    (if g0 = c ∧ col0 = Color.yellow then 1 else 0) + yellowsIn gs' cols' c
  | _, _ => 0

lemma pass2_cons (c0 : Char) (col0 : Color) (rest : List (Char × Color))
    (tC gC : Char → Nat) :
    pass2 ((c0, col0) :: rest) tC gC =
      if col0 = Color.green then Color.green :: pass2 rest tC gC
      else if tC c0 > gC c0 then
        Color.yellow ::
          pass2 rest tC fun x => if x = c0 then gC x + 1 else gC x
      else Color.gray :: pass2 rest tC gC := rfl

lemma yellowsIn_cons (g0 : Char) (gs : List Char) (col0 : Color)
    (cols : List Color) (c : Char) :
    yellowsIn (g0 :: gs) (col0 :: cols) c =
      (if g0 = c ∧ col0 = Color.yellow then 1 else 0) +
        yellowsIn gs cols c := rfl

lemma pass2_length (rows : List (Char × Color)) (tC : Char → Nat) :
    ∀ gC : Char → Nat, (pass2 rows tC gC).length = rows.length := by
  induction rows with
  | nil => intro gC; rfl
  | cons rc rest ih =>
    obtain ⟨c0, col0⟩ := rc
    intro gC
    rw [pass2_cons]
    by_cases hcol0 : col0 = Color.green
    · rw [if_pos hcol0]
      simp [ih]
    · rw [if_neg hcol0]
      by_cases hcond : tC c0 > gC c0
      · rw [if_pos hcond]
        simp [ih]
      · rw [if_neg hcond]
        simp [ih]

lemma pass2_green_iff (rows : List (Char × Color)) (tC : Char → Nat) :
    ∀ (gC : Char → Nat) (i : Nat) (c : Char) (col : Color),
    rows.get? i = some (c, col) →
    ((pass2 rows tC gC).get? i = some Color.green ↔ col = Color.green) := by
  induction rows with
  | nil =>
    intro gC i c col h
    simp at h
  | cons rc rest ih =>
    obtain ⟨c0, col0⟩ := rc
    intro gC i c col h
    rw [pass2_cons]
    by_cases hcol0 : col0 = Color.green
    · rw [if_pos hcol0]
      cases i with
      | zero =>
        simp only [List.get?_cons_zero, Option.some.injEq,
          Prod.mk.injEq] at h
        obtain ⟨rfl, rfl⟩ := h
        simp [hcol0]
      | succ i' =>
        rw [List.get?_cons_succ] at h
        rw [List.get?_cons_succ]
        exact ih gC i' c col h
    · rw [if_neg hcol0]
      by_cases hcond : tC c0 > gC c0
      · rw [if_pos hcond]
        cases i with
        | zero =>
          simp only [List.get?_cons_zero, Option.some.injEq,
            Prod.mk.injEq] at h
          obtain ⟨rfl, rfl⟩ := h
          simp [hcol0]
        | succ i' =>
          rw [List.get?_cons_succ] at h
          rw [List.get?_cons_succ]
          exact ih _ i' c col h
      · rw [if_neg hcond]
        cases i with
        | zero =>
          simp only [List.get?_cons_zero, Option.some.injEq,
            Prod.mk.injEq] at h
          obtain ⟨rfl, rfl⟩ := h
          simp [hcol0]
        | succ i' =>
          rw [List.get?_cons_succ] at h
          rw [List.get?_cons_succ]
          exact ih gC i' c col h

lemma pass2_yellow_iff (rows : List (Char × Color)) (tC : Char → Nat) :
    ∀ (gC : Char → Nat) (i : Nat) (c : Char) (col : Color),
    rows.get? i = some (c, col) →
    ((pass2 rows tC gC).get? i = some Color.yellow ↔
      (¬ col = Color.green ∧
        tC c > gC c + yellowsIn ((rows.map Prod.fst).take i)
          ((pass2 rows tC gC).take i) c)) := by
  induction rows with
  | nil =>
    intro gC i c col h
    simp at h
  | cons rc rest ih =>
    obtain ⟨c0, col0⟩ := rc
    intro gC i c col h
    rw [pass2_cons]
    by_cases hcol0 : col0 = Color.green
    · rw [if_pos hcol0]
      cases i with
      | zero =>
        simp only [List.get?_cons_zero, Option.some.injEq,
          Prod.mk.injEq] at h
        obtain ⟨rfl, rfl⟩ := h
        simp [hcol0]
      | succ i' =>
        rw [List.get?_cons_succ] at h
        rw [List.get?_cons_succ]
        rw [List.map_cons, List.take_succ_cons, List.take_succ_cons,
          yellowsIn_cons]
        rw [if_neg (fun hcon => nomatch hcon.2), Nat.zero_add]
        exact ih gC i' c col h
    · rw [if_neg hcol0]
      by_cases hcond : tC c0 > gC c0
      · rw [if_pos hcond]
        cases i with
        | zero =>
          simp only [List.get?_cons_zero, Option.some.injEq,
            Prod.mk.injEq] at h
          obtain ⟨rfl, rfl⟩ := h
          simp [hcol0, hcond, List.take_zero, yellowsIn]
        | succ i' =>
          rw [List.get?_cons_succ] at h
          rw [List.get?_cons_succ]
          rw [List.map_cons, List.take_succ_cons, List.take_succ_cons,
            yellowsIn_cons]
          have harith :
              gC c + ((if c0 = c ∧ Color.yellow = Color.yellow then 1
                else 0) +
                yellowsIn ((rest.map Prod.fst).take i')
                  ((pass2 rest tC fun x =>
                    if x = c0 then gC x + 1 else gC x).take i') c) =
              (fun x => if x = c0 then gC x + 1 else gC x) c +
                yellowsIn ((rest.map Prod.fst).take i')
                  ((pass2 rest tC fun x =>
                    if x = c0 then gC x + 1 else gC x).take i') c := by
            dsimp only
            by_cases hc : c = c0
            · rw [if_pos ⟨hc.symm, rfl⟩, if_pos hc]
              omega
            · rw [if_neg (fun hcon => hc hcon.1.symm), if_neg hc]
              omega
          rw [harith]
          exact ih _ i' c col h
      · rw [if_neg hcond]
        cases i with
        | zero =>
          simp only [List.get?_cons_zero, Option.some.injEq,
            Prod.mk.injEq] at h
          obtain ⟨rfl, rfl⟩ := h
          simp [hcol0, hcond, List.take_zero, yellowsIn]
        | succ i' =>
          rw [List.get?_cons_succ] at h
          rw [List.get?_cons_succ]
          rw [List.map_cons, List.take_succ_cons, List.take_succ_cons,
            yellowsIn_cons]
          rw [if_neg (fun hcon => nomatch hcon.2), Nat.zero_add]
          exact ih gC i' c col h

lemma pass2_yellow_bound (rows : List (Char × Color)) (tC : Char → Nat) :
    ∀ (gC : Char → Nat) (c : Char),
    yellowsIn (rows.map Prod.fst) (pass2 rows tC gC) c ≤ tC c - gC c := by
  induction rows with
  | nil =>
    intro gC c
    simp [yellowsIn]
  | cons rc rest ih =>
    obtain ⟨c0, col0⟩ := rc
    intro gC c
    rw [pass2_cons, List.map_cons]
    by_cases hcol0 : col0 = Color.green
    · rw [if_pos hcol0, yellowsIn_cons]
      rw [if_neg (fun hcon => nomatch hcon.2), Nat.zero_add]
      exact ih gC c
    · rw [if_neg hcol0]
      by_cases hcond : tC c0 > gC c0
      · rw [if_pos hcond, yellowsIn_cons]
        have hrest := ih (fun x => if x = c0 then gC x + 1 else gC x) c
        by_cases hc : c0 = c
        · rw [if_pos ⟨hc, rfl⟩]
          subst hc
          have hrest' : yellowsIn (rest.map Prod.fst)
              (pass2 rest tC fun x =>
                if x = c0 then gC x + 1 else gC x) c0 ≤
              tC c0 - (gC c0 + 1) := by
            simpa using hrest
          omega
        · rw [if_neg (fun hcon => hc hcon.1), Nat.zero_add]
          have hcc : ¬ c = c0 := fun hcon => hc hcon.symm
          rw [if_neg hcc] at hrest
          exact hrest
      · rw [if_neg hcond, yellowsIn_cons]
        rw [if_neg (fun hcon => nomatch hcon.2), Nat.zero_add]
        exact ih gC c

lemma computeFeedback_extract (guess target : String) (res : List Color)
    (h : computeFeedback guess target = Except.ok res) :
    ((strLower guess).data).length = 5 ∧
    ((strLower target).data).length = 5 ∧
    res = pass2 (((strLower guess).data).zip
        (pass1Colors (((strLower guess).data).zip
          ((strLower target).data))))
      (fun ch => ((strLower target).data).count ch)
      (greenCount (((strLower guess).data).zip
        ((strLower target).data))) := by
  unfold computeFeedback at h
  dsimp only at h
  split at h
  · simp at h
  · next hcond =>
    simp only [Bool.or_eq_true, decide_eq_true_eq, not_or, not_not] at hcond
    injection h with h'
    exact ⟨hcond.1, hcond.2, h'.symm⟩

/-- C4: for 5-letter inputs (after lowercasing), `computeFeedback` marks
position i green iff the guess letter equals the target letter at i;
a position is yellow iff it is not green and the target's total count
of that letter exceeds the greens carrying it plus the yellows already
assigned to it at earlier positions (else it stays gray); hence a
letter is yellow at most as many times as it has target occurrences not
claimed by greens.  Concretely `computeFeedback "abcde" "edcba"` is
yellow everywhere except position 2, whose letter 'c' is in place and
therefore green. -/
theorem computeFeedback_spec :
    (∀ (guess target : String) (res : List Color),
      computeFeedback guess target = Except.ok res →
      res.length = 5 ∧
      ∀ (i : Nat) (c : Char) (col : Color),
        ((strLower guess).data).get? i = some c →
        res.get? i = some col →
        ((col = Color.green ↔
            ((strLower target).data).get? i = some c) ∧
         (col = Color.yellow ↔
            (¬ ((strLower target).data).get? i = some c ∧
             ((strLower target).data).count c >
               greenCount (((strLower guess).data).zip
                 ((strLower target).data)) c +
               yellowsIn (((strLower guess).data).take i)
                 (res.take i) c)))) ∧
    (∀ (guess target : String) (res : List Color) (c : Char),
      computeFeedback guess target = Except.ok res →
      yellowsIn ((strLower guess).data) res c ≤
        ((strLower target).data).count c -
          greenCount (((strLower guess).data).zip
            ((strLower target).data)) c) ∧
    computeFeedback "abcde" "edcba" =
      Except.ok [Color.yellow, Color.yellow, Color.green, Color.yellow,
        Color.yellow] := by
  refine ⟨?_, ?_, ?_⟩
  · intro guess target res h
    obtain ⟨hg5, ht5, hres⟩ := computeFeedback_extract guess target res h
    set g : List Char := (strLower guess).data with hgdef
    set t : List Char := (strLower target).data with htdef
    have hp1len : (pass1Colors (g.zip t)).length = 5 := by
      unfold pass1Colors
      rw [List.length_map, List.length_zip g t, hg5, ht5]
      rfl
    have hle : g.length ≤ (pass1Colors (g.zip t)).length := by
      rw [hg5, hp1len]
    have hfst : (g.zip (pass1Colors (g.zip t))).map Prod.fst = g :=
      List.map_fst_zip g (pass1Colors (g.zip t)) hle
    subst hres
    constructor
    · rw [pass2_length, List.length_zip g (pass1Colors (g.zip t)), hg5,
        hp1len]
      rfl
    · intro i c col hgc hcol
      obtain ⟨hlt, -⟩ := List.get?_eq_some.mp hgc
      have hti : i < t.length := by
        rw [ht5]
        rw [hg5] at hlt
        exact hlt
      have htc : t.get? i = some (t.get ⟨i, hti⟩) := List.get?_eq_get hti
      set tc : Char := t.get ⟨i, hti⟩ with htcdef
      have hpairs : (g.zip t).get? i = some (c, tc) :=
        (List.get?_zip_eq_some g t (c, tc) i).mpr ⟨hgc, htc⟩
      have hp1 : (pass1Colors (g.zip t)).get? i =
          some (if c = tc then Color.green else Color.gray) := by
        unfold pass1Colors
        rw [List.get?_map, hpairs]
        rfl
      have hrow : (g.zip (pass1Colors (g.zip t))).get? i =
          some (c, if c = tc then Color.green else Color.gray) :=
        (List.get?_zip_eq_some g (pass1Colors (g.zip t))
          (c, if c = tc then Color.green else Color.gray) i).mpr ⟨hgc, hp1⟩
      have hgreen := pass2_green_iff (g.zip (pass1Colors (g.zip t)))
        (fun ch => t.count ch) (greenCount (g.zip t)) i c
        (if c = tc then Color.green else Color.gray) hrow
      have hyellow := pass2_yellow_iff (g.zip (pass1Colors (g.zip t)))
        (fun ch => t.count ch) (greenCount (g.zip t)) i c
        (if c = tc then Color.green else Color.gray) hrow
      rw [hfst] at hyellow
      rw [hcol] at hgreen hyellow
      constructor
      · constructor
        · intro hcg
          have hcol1 : (if c = tc then Color.green else Color.gray) =
              Color.green := hgreen.mp (by rw [hcg])
          by_cases hct : c = tc
          · rw [htc, hct]
          · rw [if_neg hct] at hcol1
            cases hcol1
        · intro ht'
          have htcc : tc = c := Option.some.inj (htc.symm.trans ht')
          have : some col = some Color.green :=
            hgreen.mpr (by rw [if_pos htcc.symm])
          injection this
      · constructor
        · intro hcy
          obtain ⟨hncol1, hcount⟩ := hyellow.mp (by rw [hcy])
          refine ⟨?_, hcount⟩
          intro ht'
          have htcc : tc = c := Option.some.inj (htc.symm.trans ht')
          exact hncol1 (by rw [if_pos htcc.symm])
        · rintro ⟨hnt, hcount⟩
          have hct : ¬ c = tc := by
            intro hcon
            exact hnt (by rw [htc, hcon])
          have hncol1 : ¬ (if c = tc then Color.green else Color.gray) =
              Color.green := by
            rw [if_neg hct]
            intro hcon
            cases hcon
          have : some col = some Color.yellow :=
            hyellow.mpr ⟨hncol1, hcount⟩
          injection this
  · intro guess target res c h
    obtain ⟨hg5, ht5, hres⟩ := computeFeedback_extract guess target res h
    set g : List Char := (strLower guess).data with hgdef
    set t : List Char := (strLower target).data with htdef
    have hp1len : (pass1Colors (g.zip t)).length = 5 := by
      unfold pass1Colors
      rw [List.length_map, List.length_zip g t, hg5, ht5]
      rfl
    have hle : g.length ≤ (pass1Colors (g.zip t)).length := by
      rw [hg5, hp1len]
    have hfst : (g.zip (pass1Colors (g.zip t))).map Prod.fst = g :=
      List.map_fst_zip g (pass1Colors (g.zip t)) hle
    subst hres
    have hb := pass2_yellow_bound (g.zip (pass1Colors (g.zip t)))
      (fun ch => t.count ch) (greenCount (g.zip t)) c
    rw [hfst] at hb
    exact hb
  · have h0 : computeFeedback "abcde" "edcba" =
        Except.ok (pass2 ((strLower "abcde").data.zip
            (pass1Colors ((strLower "abcde").data.zip
              (strLower "edcba").data)))
          (fun c => (strLower "edcba").data.count c)
          (greenCount ((strLower "abcde").data.zip
            (strLower "edcba").data))) := rfl
    rw [h0]
    exact congrArg Except.ok (by decide)

/-- C4 counterexample: the claimed concrete example is false — position
2 of guess "abcde" against target "edcba" is the in-place letter 'c',
so the feedback is yellow-yellow-green-yellow-yellow, not all five
yellow. -/
theorem computeFeedback_abcde_not_all_yellow :
    computeFeedback "abcde" "edcba" =
      Except.ok [Color.yellow, Color.yellow, Color.green, Color.yellow,
        Color.yellow] ∧
    ¬ computeFeedback "abcde" "edcba" =
      Except.ok [Color.yellow, Color.yellow, Color.yellow, Color.yellow,
        Color.yellow] := by
  have h0 : computeFeedback "abcde" "edcba" =
      Except.ok (pass2 ((strLower "abcde").data.zip
          (pass1Colors ((strLower "abcde").data.zip
            (strLower "edcba").data)))
        (fun c => (strLower "edcba").data.count c)
        (greenCount ((strLower "abcde").data.zip
          (strLower "edcba").data))) := rfl
  constructor
  · rw [h0]
    exact congrArg Except.ok (by decide)
  · rw [h0]
    intro hcon
    exact absurd (Except.ok.inj hcon) (by decide)

/-- Witness for C4 at guess "abcde", target "edcba": position 0 (letter
'a', not in place) satisfies the yellow characterization. -/
theorem computeFeedback_spec_witness :
    computeFeedback "abcde" "edcba" =
      Except.ok [Color.yellow, Color.yellow, Color.green, Color.yellow,
        Color.yellow] ∧
    (Color.yellow = Color.yellow ↔
      (¬ ((strLower "edcba").data).get? 0 = some 'a' ∧
        ((strLower "edcba").data).count 'a' >
          greenCount (((strLower "abcde").data).zip
            ((strLower "edcba").data)) 'a' +
          yellowsIn (((strLower "abcde").data).take 0)
            (([Color.yellow, Color.yellow, Color.green, Color.yellow,
              Color.yellow] : List Color).take 0) 'a')) := by
  refine ⟨computeFeedback_spec.2.2, ?_⟩
  exact ((computeFeedback_spec.1 "abcde" "edcba"
    [Color.yellow, Color.yellow, Color.green, Color.yellow, Color.yellow]
    computeFeedback_spec.2.2).2 0 'a' Color.yellow (by decide)
    (by decide)).2

end Wordpot
